import Mathlib

/-!
Verification of the graphiti-rs core against its design specification.

The Rust sources under `crates/graphiti-core` are shallowly embedded: pure
functions become Lean functions, stateful or effectful code becomes explicit
state passing together with a trace of port calls, and the nondeterministic
inputs of the code (`Uuid::new_v4`, `Utc::now`, database rows, cache
contents) become explicit parameters or oracle fields of an environment
record.  `chrono::DateTime<Utc>` is modelled as milliseconds since the Unix
epoch (a natural number), `f64` scores as rationals, and byte strings as
lists of naturals.
-/

set_option linter.unusedVariables false

namespace Graphiti

/-- Instants (`chrono::DateTime<Utc>`) as milliseconds since the Unix epoch. -/
abbrev DateTime := Nat

/-- Byte strings (`Vec<u8>`). -/
abbrev Bytes := List Nat

/-! ## Data model: edges (`edges.rs`) -/

/-- `edges.rs`: `BaseEdge`, the common fields of every edge. -/
structure BaseEdge where
  uuid : String
  group_id : String
  source_node_uuid : String
  target_node_uuid : String
  created_at : DateTime
deriving DecidableEq

/-- `BaseEdge::new`, with the nondeterministic inputs (`Uuid::new_v4()` and
`Utc::now()`) made explicit parameters `uuid` and `now`. -/
def BaseEdge.new (uuid : String) (now : DateTime)
    (group_id source_node_uuid target_node_uuid : String) : BaseEdge :=
  { uuid := uuid
    group_id := group_id
    source_node_uuid := source_node_uuid
    target_node_uuid := target_node_uuid
    created_at := now }

/-- `edges.rs`: `EntityEdge`, a fact between two entities.  `valid_at` is a
plain (non-optional) instant, exactly as in the Rust struct. -/
structure EntityEdge where
  base : BaseEdge
  name : String
  fact : String
  episodes : List String
  expired_at : Option DateTime
  valid_at : DateTime
  invalid_at : Option DateTime
deriving DecidableEq

/-- `EntityEdge::new` (uuid and clock made explicit, as in `BaseEdge.new`). -/
def EntityEdge.new (uuid : String) (now : DateTime)
    (group_id source_entity_uuid target_entity_uuid name fact : String)
    (valid_at : DateTime) : EntityEdge :=
  { base := BaseEdge.new uuid now group_id source_entity_uuid target_entity_uuid
    name := name
    fact := fact
    episodes := []
    expired_at := none
    valid_at := valid_at
    invalid_at := none }

/-- `EntityEdge::with_episodes`. -/
def EntityEdge.with_episodes (e : EntityEdge) (episodes : List String) : EntityEdge :=
  { e with episodes := episodes }

/-- `EntityEdge::with_expired_at`. -/
def EntityEdge.with_expired_at (e : EntityEdge) (expired_at : DateTime) : EntityEdge :=
  { e with expired_at := some expired_at }

/-- `EntityEdge::with_invalid_at`.  Sets only `invalid_at`; `expired_at` is
left untouched. -/
def EntityEdge.with_invalid_at (e : EntityEdge) (invalid_at : DateTime) : EntityEdge :=
  { e with invalid_at := some invalid_at }

/-! ## Data model: nodes (`nodes.rs`) -/

/-- `nodes.rs`: `EpisodeType`. -/
inductive EpisodeType where
  | message
  | json
  | text
deriving DecidableEq

/-- `nodes.rs`: `BaseNode`, the common fields of every node. -/
structure BaseNode where
  uuid : String
  name : String
  group_id : String
  labels : List String
  created_at : DateTime
deriving DecidableEq

/-- `BaseNode::new` (uuid and clock made explicit). -/
def BaseNode.new (uuid : String) (now : DateTime) (name group_id : String) : BaseNode :=
  { uuid := uuid
    name := name
    group_id := group_id
    labels := []
    created_at := now }

/-- `BaseNode::with_created_at`. -/
def BaseNode.with_created_at (n : BaseNode) (created_at : DateTime) : BaseNode :=
  { n with created_at := created_at }

/-- `nodes.rs`: `EpisodicNode`. -/
structure EpisodicNode where
  base : BaseNode
  source : EpisodeType
  source_description : String
  content : String
  valid_at : DateTime
  entity_edges : List String
deriving DecidableEq

/-- `nodes.rs`: `EntityNode` (summary embedding as rational coordinates). -/
structure EntityNode where
  base : BaseNode
  summary : String
  summary_embedding : Option (List Rat)
deriving DecidableEq

/-- `nodes.rs`: `CommunityNode` is `BaseNode` plus a summary. -/
structure CommunityNode where
  base : BaseNode
  summary : String
deriving DecidableEq

/-! ## Temporal maintenance (`utils/maintenance/temporal_operations.rs`) -/

/-- `update_edge_temporal_bounds`.  The Rust source assigns the optional
`valid_at` argument directly to the non-optional `valid_at` field; its own
unit test fixes the `Some` case (`edge.valid_at == valid_at.unwrap()`), and we
model the `None` case as leaving the field unchanged.  `invalid_at` is stored
as given, and `expired_at` is set to `current_time` exactly when `invalid_at`
is `Some`. -/
def update_edge_temporal_bounds (edge : EntityEdge)
    (valid_at invalid_at : Option DateTime) (current_time : DateTime) : EntityEdge :=
  { edge with
    valid_at := valid_at.getD edge.valid_at
    invalid_at := invalid_at
    expired_at := if invalid_at.isSome then some current_time else edge.expired_at }

/-! ## Bulk utilities (`utils/bulk_utils.rs`) -/

/-- `HashMap<String, _>` (and the sled tree) are modelled as association
lists; `alookup` models `get`, returning the value of the first matching
key. -/
def alookup {β : Type} (m : List (String × β)) (k : String) : Option β :=
  match m with
  | [] => none
  | (k', v) :: rest => if k' = k then some v else alookup rest k

/-- Iterating `uuid_map.get` exactly `n` times from `v`; `none` when some
lookup along the way fails.  Used to speak about mapping chains. -/
def stepN (m : List (String × String)) : Nat → String → Option String
  | 0, v => some v
  | n + 1, v =>
    match alookup m v with
    | none => none
    | some w => stepN m n w

/-- The `while let Some(next_value) = uuid_map.get(value)` loop of
`compress_uuid_map`, with explicit fuel: `some t` when the loop exits with
final value `t` within `fuel` iterations, `none` when the fuel runs out with
the loop still running.  The source loop diverges from `v` exactly when this
returns `none` for every fuel. -/
def chaseFuel (m : List (String × String)) (v : String) : Nat → Option String
  | 0 => none
  | fuel + 1 =>
    match alookup m v with
    | none => some v
    | some w => chaseFuel m w fuel

/-- The chase loop of `compress_uuid_map` started at `v` never exits. -/
def ChaseDiverges (m : List (String × String)) (v : String) : Prop :=
  ∀ fuel, chaseFuel m v fuel = none

/-- The per-entry body of `compress_uuid_map` applied to every entry.  Each
key is sent to the final value of its chain; `m.length + 1` fuel is enough for
every terminating chase (shown below for acyclic maps), so a `none` result
signals a chain on which the source loop cannot finish this quickly. -/
def compressGo (m : List (String × String)) :
    List (String × String) → Option (List (String × String))
  | [] => some []
  | (k, v) :: rest =>
    match chaseFuel m v (m.length + 1), compressGo m rest with
    | some t, some c => some ((k, t) :: c)
    | _, _ => none

/-- `compress_uuid_map`: resolve transitive mappings, sending each key to the
terminal value of its chain.  `none` models the case in which the source's
unbounded `while` loop fails to finish within `m.length + 1` iterations for
some entry (for a cyclic map it never finishes at all, see
`chaseFuel_cycle_diverges`). -/
def compress_uuid_map (m : List (String × String)) : Option (List (String × String)) :=
  compressGo m m

/-- The UUID map has no mapping cycle: no value returns to itself after one
or more `get` steps. -/
def Acyclic (m : List (String × String)) : Prop :=
  ∀ v n, stepN m (n + 1) v ≠ some v

/-- `resolve_edge_pointers` applied to one edge: rewrite each endpoint that
has an entry in the UUID map. -/
def resolveEdgePointer (uuid_map : List (String × String)) (e : EntityEdge) : EntityEdge :=
  let src :=
    match alookup uuid_map e.base.source_node_uuid with
    | some new_uuid => new_uuid
    | none => e.base.source_node_uuid
  let tgt :=
    match alookup uuid_map e.base.target_node_uuid with
    | some new_uuid => new_uuid
    | none => e.base.target_node_uuid
  { e with base := { e.base with source_node_uuid := src, target_node_uuid := tgt } }

/-- `resolve_edge_pointers` over a slice of edges. -/
def resolve_edge_pointers (edges : List EntityEdge)
    (uuid_map : List (String × String)) : List EntityEdge :=
  edges.map (resolveEdgePointer uuid_map)

/-- Lexicographic comparison of character lists by code point,
matching `Ord for String` in Rust (UTF-8 byte order equals code-point
order). -/
def charListLt : List Char → List Char → Bool
  | _, [] => false
  | [], _ :: _ => true
  | a :: as, b :: bs =>
    if a.toNat < b.toNat then true
    else if b.toNat < a.toNat then false
    else charListLt as bs

/-- String comparison used by `pointers.sort()`. -/
def strLtb (s t : String) : Bool :=
  charListLt s.data t.data

/-- The grouping key of `chunk_edges_by_nodes`: the two endpoint UUIDs sorted
ascending (`pointers.sort()`) and joined with the empty separator. -/
def edgeSortKey (e : EntityEdge) : String :=
  if strLtb e.base.target_node_uuid e.base.source_node_uuid then
    e.base.target_node_uuid ++ e.base.source_node_uuid
  else
    e.base.source_node_uuid ++ e.base.target_node_uuid

/-- `edge_chunk_map.entry(key).or_default().push(edge)`: append `e` to the
entry of `key`, creating the entry when absent.  The map is modelled as an
association list in insertion order. -/
def addToGroups (groups : List (String × List EntityEdge)) (key : String)
    (e : EntityEdge) : List (String × List EntityEdge) :=
  match groups with
  | [] => [(key, [e])]
  | (k, es) :: rest =>
    if k = key then (k, es ++ [e]) :: rest else (k, es) :: addToGroups rest key e

/-- The accumulation loop of `chunk_edges_by_nodes`: skip self-loops, group
the rest by `edgeSortKey`. -/
def chunkGo (groups : List (String × List EntityEdge)) :
    List EntityEdge → List (String × List EntityEdge)
  | [] => groups
  | e :: rest =>
    if e.base.source_node_uuid = e.base.target_node_uuid then
      chunkGo groups rest
    else
      chunkGo (addToGroups groups (edgeSortKey e) e) rest

/-- `chunk_edges_by_nodes`: group edges by unordered endpoint pair, dropping
self-loops first (`into_values`, here in insertion order). -/
def chunk_edges_by_nodes (edges : List EntityEdge) : List (List EntityEdge) :=
  (chunkGo [] edges).map Prod.snd

/-- `bulk_utils.rs`: `RawEpisode`. -/
structure RawEpisode where
  name : String
  content : String
  source_description : String
  source : EpisodeType
  reference_time : DateTime
deriving DecidableEq

/-! ## Orchestrator (`graphiti.rs`) -/

/-- A call to one of the engine's ports, recorded in traces. -/
inductive PortCall where
  | cacheGet (key : String)
  | cacheSet (key : String)
  | embed (query : String)
  | storeExec (query : String)
  | llm (role : String)
  | rerank (query : String)
deriving DecidableEq

/-- Whether a port call touches the graph store. -/
def PortCall.isStore : PortCall → Bool
  | .storeExec _ => true
  | _ => false

/-- `graphiti.rs`: `AddEpisodeResults`. -/
structure AddEpisodeResults where
  episode : EpisodicNode
  nodes : List EntityNode
  edges : List EntityEdge
deriving DecidableEq

/-- `Graphiti::add_episode`.  In the source every step past episode
construction (previous-episode retrieval, extraction, dedup, temporal
extraction, and the save to the database) is commented out as temporarily
disabled, so the function performs no port call at all: the trace component
is empty, and the returned nodes and edges are the empty vectors.  `uuid` models
`Uuid::new_v4()` and `now` models `utc_now()`. -/
def add_episode (store_raw_episode_content : Bool) (uuid : String) (now : DateTime)
    (name content : String) (source : EpisodeType)
    (source_description group_id : String) (reference_time : Option DateTime) :
    AddEpisodeResults × List PortCall :=
  let reference_time := reference_time.getD now
  let base_node := (BaseNode.new uuid now name group_id).with_created_at reference_time
  let episode : EpisodicNode :=
    { base := base_node
      source := source
      source_description := source_description
      content := if store_raw_episode_content then content else ""
      valid_at := reference_time
      entity_edges := [] }
  let nodes : List EntityNode := []
  let edges : List EntityEdge := []
  ({ episode := episode, nodes := nodes, edges := edges }, [])

/-- The episode construction of `Graphiti::add_episodes_bulk` for one raw episode:
`BaseNode::new(raw.name, "default")` followed by
`with_created_at(raw.reference_time)`; content kept only when raw storage is
on; `valid_at = raw.reference_time`. -/
def episodeOfRaw (store_raw_episode_content : Bool) (uuid : String) (now : DateTime)
    (raw : RawEpisode) : EpisodicNode :=
  { base := (BaseNode.new uuid now raw.name "default").with_created_at raw.reference_time
    source := raw.source
    source_description := raw.source_description
    content := if store_raw_episode_content then raw.content else ""
    valid_at := raw.reference_time
    entity_edges := [] }

/-- The episode-construction map of `add_episodes_bulk`; `supply i` models the
`Uuid::new_v4()` drawn for the `i`-th episode. -/
def bulkEpisodes (store_raw_episode_content : Bool) (supply : Nat → String)
    (now : DateTime) (i : Nat) : List RawEpisode → List EpisodicNode
  | [] => []
  | raw :: rest =>
    episodeOfRaw store_raw_episode_content (supply i) now raw ::
      bulkEpisodes store_raw_episode_content supply now (i + 1) rest

/-- `Graphiti::add_episodes_bulk`.  As in `add_episode`, every pipeline stage
is disabled in the source, so `nodes` and `edges` are the empty vectors and
each result clones those same vectors. -/
def add_episodes_bulk (store_raw_episode_content : Bool) (supply : Nat → String)
    (now : DateTime) (raw_episodes : List RawEpisode) : List AddEpisodeResults :=
  let episodes := bulkEpisodes store_raw_episode_content supply now 0 raw_episodes
  let nodes : List EntityNode := []
  let edges : List EntityEdge := []
  episodes.map fun episode => { episode := episode, nodes := nodes, edges := edges }

/-! ## Cache keys (`cache/mod.rs`)

`generate_cache_key` is `sha256(join("|", components))` rendered as lowercase
hex.  SHA-256 is embedded concretely: 32-bit words are naturals reduced
modulo `2^32`. -/

/-- Reduce to a 32-bit word. -/
def w32 (n : Nat) : Nat := n % 4294967296

/-- 32-bit right rotation. -/
def rotr32 (x n : Nat) : Nat := w32 ((x >>> n) ||| (x <<< (32 - n)))

/-- SHA-256 `Ch(x, y, z)`. -/
def sha1ch (x y z : Nat) : Nat := (x &&& y) ^^^ ((x ^^^ 4294967295) &&& z)

/-- SHA-256 `Maj(x, y, z)`. -/
def sha1maj (x y z : Nat) : Nat := (x &&& y) ^^^ (x &&& z) ^^^ (y &&& z)

/-- SHA-256 `Σ₀`. -/
def bigSigma0 (x : Nat) : Nat := rotr32 x 2 ^^^ rotr32 x 13 ^^^ rotr32 x 22

/-- SHA-256 `Σ₁`. -/
def bigSigma1 (x : Nat) : Nat := rotr32 x 6 ^^^ rotr32 x 11 ^^^ rotr32 x 25

/-- SHA-256 `σ₀`. -/
def smallSigma0 (x : Nat) : Nat := rotr32 x 7 ^^^ rotr32 x 18 ^^^ (x >>> 3)

/-- SHA-256 `σ₁`. -/
def smallSigma1 (x : Nat) : Nat := rotr32 x 17 ^^^ rotr32 x 19 ^^^ (x >>> 10)

/-- The SHA-256 round constants. -/
def K256 : List Nat :=
  [1116352408, 1899447441, 3049323471, 3921009573, 961987163,
   1508970993, 2453635748, 2870763221, 3624381080, 310598401,
   607225278, 1426881987, 1925078388, 2162078206, 2614888103,
   3248222580, 3835390401, 4022224774, 264347078, 604807628,
   770255983, 1249150122, 1555081692, 1996064986, 2554220882,
   2821834349, 2952996808, 3210313671, 3336571891, 3584528711,
   113926993, 338241895, 666307205, 773529912, 1294757372,
   1396182291, 1695183700, 1986661051, 2177026350, 2456956037,
   2730485921, 2820302411, 3259730800, 3345764771, 3516065817,
   3600352804, 4094571909, 275423344, 430227734, 506948616,
   659060556, 883997877, 958139571, 1322822218, 1537002063,
   1747873779, 1955562222, 2024104815, 2227730452, 2361852424,
   2428436474, 2756734187, 3204031479, 3329325298]

/-- The state of the SHA-256 compression function. -/
structure Hash8 where
  a : Nat
  b : Nat
  c : Nat
  d : Nat
  e : Nat
  f : Nat
  g : Nat
  h : Nat
deriving DecidableEq

/-- The SHA-256 initial hash value. -/
def initH : Hash8 :=
  { a := 1779033703, b := 3144134277, c := 1013904242, d := 2773480762,
    e := 1359893119, f := 2600822924, g := 528734635, h := 1541459225 }

/-- One SHA-256 round. -/
def sha256Round (st : Hash8) (ki wi : Nat) : Hash8 :=
  let t1 := w32 (st.h + bigSigma1 st.e + sha1ch st.e st.f st.g + ki + wi)
  let t2 := w32 (bigSigma0 st.a + sha1maj st.a st.b st.c)
  { a := w32 (t1 + t2), b := st.a, c := st.b, d := st.c,
    e := w32 (st.d + t1), f := st.e, g := st.f, h := st.g }

/-- Plain function iteration. -/
def iterN {α : Type} (f : α → α) : Nat → α → α
  | 0, a => a
  | n + 1, a => iterN f n (f a)

/-- One extension step of the message schedule, on the reversed schedule (the
head is the most recent word). -/
def scheduleStep (rw : List Nat) : List Nat :=
  w32 (smallSigma1 (rw.getD 1 0) + rw.getD 6 0 +
    smallSigma0 (rw.getD 14 0) + rw.getD 15 0) :: rw

/-- Extend a 16-word block to the 64-word message schedule. -/
def schedule (ws : List Nat) : List Nat :=
  (iterN scheduleStep 48 ws.reverse).reverse

/-- Compress one 16-word block into the running hash. -/
def compressBlock (h : Hash8) (ws : List Nat) : Hash8 :=
  let final := ((K256.zip (schedule ws)).foldl (fun st p => sha256Round st p.1 p.2)) h
  { a := w32 (h.a + final.a), b := w32 (h.b + final.b), c := w32 (h.c + final.c),
    d := w32 (h.d + final.d), e := w32 (h.e + final.e), f := w32 (h.f + final.f),
    g := w32 (h.g + final.g), h := w32 (h.h + final.h) }

/-- UTF-8 encoding of one character (`str::as_bytes`). -/
def utf8Encode (c : Char) : List Nat :=
  let n := c.toNat
  if n < 128 then [n]
  else if n < 2048 then [192 + n / 64, 128 + n % 64]
  else if n < 65536 then [224 + n / 4096, 128 + n / 64 % 64, 128 + n % 64]
  else [240 + n / 262144, 128 + n / 4096 % 64, 128 + n / 64 % 64, 128 + n % 64]

/-- UTF-8 bytes of a string. -/
def strBytes (s : String) : Bytes :=
  (s.data.map utf8Encode).flatten

/-- The eight big-endian bytes of a 64-bit length. -/
def be64 (n : Nat) : List Nat :=
  [n / 2 ^ 56 % 256, n / 2 ^ 48 % 256, n / 2 ^ 40 % 256, n / 2 ^ 32 % 256,
   n / 2 ^ 24 % 256, n / 2 ^ 16 % 256, n / 2 ^ 8 % 256, n % 256]

/-- SHA-256 message padding: `0x80`, zeros to 56 mod 64, 64-bit bit length. -/
def sha256Pad (msg : List Nat) : List Nat :=
  let zeros := (120 - (msg.length + 1) % 64) % 64
  msg ++ 128 :: List.replicate zeros 0 ++ be64 (msg.length * 8)

/-- Big-endian 32-bit words of a byte list. -/
def bytesToWords : List Nat → List Nat
  | b0 :: b1 :: b2 :: b3 :: rest =>
    (((b0 * 256 + b1) * 256 + b2) * 256 + b3) :: bytesToWords rest
  | _ => []

/-- Split a word list into 16-word blocks. -/
def chunk16 (l : List Nat) : List (List Nat) :=
  if hl : l = [] then [] else l.take 16 :: chunk16 (l.drop 16)
termination_by l.length
decreasing_by
  have hp : 0 < l.length := List.length_pos.mpr hl
  simp [List.length_drop]
  omega

/-- The eight 32-bit words of the SHA-256 digest of a byte string. -/
def sha256Words (msg : List Nat) : List Nat :=
  let blocks := chunk16 (bytesToWords (sha256Pad msg))
  let h := blocks.foldl compressBlock initH
  [h.a, h.b, h.c, h.d, h.e, h.f, h.g, h.h]

/-- Lowercase hexadecimal digit. -/
def hexDigit (n : Nat) : Char :=
  if n < 10 then Char.ofNat (48 + n) else Char.ofNat (87 + n)

/-- Eight lowercase hex digits of one 32-bit word. -/
def hex8 (n : Nat) : List Char :=
  (List.range 8).map fun i => hexDigit (n >>> ((7 - i) * 4) % 16)

/-- `format!("{:x}", hash)`: the 64-character lowercase hex digest. -/
def sha256Hex (msg : List Nat) : String :=
  ⟨((sha256Words msg).map hex8).flatten⟩

/-- `cache/mod.rs`: `generate_cache_key` —
`sha256(components.join("|"))` in lowercase hex. -/
def generate_cache_key (components : List String) : String :=
  sha256Hex (strBytes (String.intercalate "|" components))

/-! ## Disk cache (`cache/disk_cache.rs`)

The sled database is modelled as an association list from keys to stored
byte strings, bincode (de)serialization of `CacheEntry` as a concrete
self-describing codec (`CacheEntry.to_bytes` / `CacheEntry.from_bytes`, with
`none` as the deserialization failure), and the clock as an explicit `now`
parameter in milliseconds. -/

/-- Association-list upsert (`sled::Db::insert`). -/
def alistPut {β : Type} (m : List (String × β)) (k : String) (v : β) :
    List (String × β) :=
  match m with
  | [] => [(k, v)]
  | (k', v') :: rest => if k' = k then (k, v) :: rest else (k', v') :: alistPut rest k v

/-- Association-list removal (`sled::Db::remove`). -/
def alistDrop {β : Type} (m : List (String × β)) (k : String) : List (String × β) :=
  match m with
  | [] => []
  | (k', v') :: rest => if k' = k then rest else (k', v') :: alistDrop rest k

/-- `cache/disk_cache.rs`: `CacheEntry` (timestamps in milliseconds). -/
structure CacheEntry where
  data : Bytes
  expires_at : Option Nat
  created_at : Nat
deriving DecidableEq

/-- `CacheEntry::new`, with `SystemTime::now` as the explicit `now`. -/
def CacheEntry.new (data : Bytes) (ttl : Option Nat) (now : Nat) : CacheEntry :=
  { data := data, expires_at := ttl.map fun t => now + t, created_at := now }

/-- `CacheEntry::is_expired` at the instant `now`. -/
def CacheEntry.is_expired (e : CacheEntry) (now : Nat) : Bool :=
  match e.expires_at with
  | some expires_at => expires_at < now
  | none => false

/-- `CacheEntry::to_bytes`: bincode serialization, modelled as the
length-prefixed data followed by the option tag for `expires_at` and the
creation time. -/
def CacheEntry.to_bytes (e : CacheEntry) : Bytes :=
  e.data.length :: e.data ++
    (match e.expires_at with
     | none => [0]
     | some t => [1, t]) ++ [e.created_at]

/-- `CacheEntry::from_bytes`: the matching deserializer; `none` models the
bincode error on bytes that are not a serialized entry. -/
def CacheEntry.from_bytes (bytes : Bytes) : Option CacheEntry :=
  match bytes with
  | len :: rest =>
    if rest.length < len then none
    else
      match rest.drop len with
      | 0 :: created :: [] =>
        some { data := rest.take len, expires_at := none, created_at := created }
      | 1 :: t :: created :: [] =>
        some { data := rest.take len, expires_at := some t, created_at := created }
      | _ => none
  | [] => none

/-- The mutable state of a `DiskCache`: the sled tree plus the running hit
and miss counters. -/
structure DiskCacheState where
  store : List (String × Bytes)
  hits : Nat
  misses : Nat
deriving DecidableEq

/-- `DiskCache::get`.  A stored value that fails to deserialize propagates
the error (`CacheEntry::from_bytes(&value)?`) with the state unchanged; an
expired entry is removed and counted as a miss; otherwise the entry's data is
returned as a hit. -/
def DiskCache.get (st : DiskCacheState) (key : String) (now : Nat) :
    Except String (Option Bytes) × DiskCacheState :=
  match alookup st.store key with
  | some value =>
    match CacheEntry.from_bytes value with
    | none => (Except.error "Failed to deserialize cache entry", st)
    | some entry =>
      if entry.is_expired now then
        (Except.ok none,
          { st with store := alistDrop st.store key, misses := st.misses + 1 })
      else
        (Except.ok (some entry.data), { st with hits := st.hits + 1 })
  | none => (Except.ok none, { st with misses := st.misses + 1 })

/-- `DiskCache::set_with_ttl`: serialize a fresh entry and insert it under
the key, overwriting whatever was there. -/
def DiskCache.set_with_ttl (st : DiskCacheState) (key : String) (value : Bytes)
    (ttl : Nat) (now : Nat) : DiskCacheState :=
  { st with
    store := alistPut st.store key (CacheEntry.to_bytes (CacheEntry.new value (some ttl) now)) }

/-- `DiskCache::set`: `set_with_ttl` at the configured default TTL. -/
def DiskCache.set (st : DiskCacheState) (key : String) (value : Bytes)
    (default_ttl : Nat) (now : Nat) : DiskCacheState :=
  DiskCache.set_with_ttl st key value default_ttl now

/-! ## Lucene sanitization and full-text queries (`search/utils.rs`) -/

/-- The reserved Lucene characters escaped by `lucene_sanitize`
(`search/utils.rs`). -/
def luceneSpecial : List Char :=
  ['+', '-', '&', '|', '!', '(', ')', '{', '}', '[', ']', '^', '"', '~', '*',
    '?', ':', '\\']

/-- The per-character action of `lucene_sanitize` in `search/utils.rs`:
reserved characters get a backslash prefix, alphanumeric and whitespace
characters are kept, everything else is dropped.  (Alphanumeric/whitespace
classification is modelled by Lean's character predicates.) -/
def sanitizeChar (c : Char) : List Char :=
  if c ∈ luceneSpecial then ['\\', c]
  else if c.isAlphanum ∨ c.isWhitespace then [c]
  else []

/-- `search/utils.rs`: `lucene_sanitize` — the character-wise map-and-join. -/
def lucene_sanitize (query : String) : String :=
  ⟨(query.data.map sanitizeChar).flatten⟩

/-- `str::split_whitespace().count()`: the number of maximal non-whitespace
runs.  The boolean flag records whether the previous character was inside a
token. -/
def countTokensGo : List Char → Bool → Nat
  | [], _ => 0
  | c :: rest, inTok =>
    if c.isWhitespace then countTokensGo rest false
    else if inTok then countTokensGo rest true
    else countTokensGo rest true + 1

/-- Whitespace-token count of a string. -/
def countTokens (s : String) : Nat :=
  countTokensGo s.data false

/-- `search/utils.rs`: `MAX_QUERY_LENGTH`. -/
def MAX_QUERY_LENGTH : Nat := 32

/-- The length measure checked by `fulltext_query`: whitespace tokens of the
sanitized query plus one clause per group id. -/
def fulltextMeasure (query : String) (group_ids : Option (List String)) : Nat :=
  countTokens (lucene_sanitize query) +
    (match group_ids with
     | some groups => groups.length
     | none => 0)

/-- `search/utils.rs`: `fulltext_query`.  Builds the `group_id:"…" OR … AND `
prefix, sanitizes the query, and returns the empty string when the token
measure reaches `MAX_QUERY_LENGTH`. -/
def fulltext_query (query : String) (group_ids : Option (List String)) : String :=
  let group_ids_filter :=
    match group_ids with
    | some groups =>
      let group_filters := groups.map fun g => "group_id:\"" ++ lucene_sanitize g ++ "\""
      if group_filters ≠ [] then String.intercalate " OR " group_filters ++ " AND "
      else ""
    | none => ""
  let lucene_query := lucene_sanitize query
  if MAX_QUERY_LENGTH ≤ fulltextMeasure query group_ids then ""
  else group_ids_filter ++ "(" ++ lucene_query ++ ")"

/-! ## Search configuration (`search/config.rs`) -/

/-- `search/config.rs`: `SearchResult<T>` with the `f64` score as a rational. -/
structure SearchResult (α : Type) where
  item : α
  score : Rat
deriving DecidableEq

/-- `search/config.rs`: `NodeSearchMethod` (spelling as in the source). -/
inductive NodeSearchMethod where
  | cosimeSimilarity
  | bm25
  | bfs
deriving DecidableEq

/-- `search/config.rs`: `EdgeSearchMethod`. -/
inductive EdgeSearchMethod where
  | cosimeSimilarity
  | bm25
  | bfs
deriving DecidableEq

/-- `search/config.rs`: `EpisodeSearchMethod`. -/
inductive EpisodeSearchMethod where
  | bm25
deriving DecidableEq

/-- `search/config.rs`: `CommunitySearchMethod`. -/
inductive CommunitySearchMethod where
  | cosimeSimilarity
  | bm25
deriving DecidableEq

/-- `search/config.rs`: `NodeReranker`. -/
inductive NodeReranker where
  | rrf
  | nodeDistance
  | episodeMentions
  | mmr
  | crossEncoder
deriving DecidableEq

/-- `search/config.rs`: `EdgeReranker`. -/
inductive EdgeReranker where
  | rrf
  | nodeDistance
  | episodeMentions
  | mmr
  | crossEncoder
deriving DecidableEq

/-- `search/config.rs`: `EpisodeReranker`. -/
inductive EpisodeReranker where
  | rrf
  | crossEncoder
deriving DecidableEq

/-- `search/config.rs`: `CommunityReranker`. -/
inductive CommunityReranker where
  | rrf
  | mmr
  | crossEncoder
deriving DecidableEq

/-- `search/filters.rs`: `SearchFilters` (date filters abstracted to their
presence; the search paths below only thread them through). -/
structure SearchFilters where
  node_labels : Option (List String)
  edge_types : Option (List String)
deriving DecidableEq

/-- `SearchFilters::default`. -/
def SearchFilters.default : SearchFilters :=
  { node_labels := none, edge_types := none }

/-- `search/config.rs`: `NodeSearchConfig`. -/
structure NodeSearchConfig where
  search_methods : List NodeSearchMethod
  reranker : NodeReranker
  sim_min_score : Rat
  mmr_lambda : Rat
  bfs_max_depth : Int
deriving DecidableEq

/-- `NodeSearchConfig::default`. -/
def NodeSearchConfig.default : NodeSearchConfig :=
  { search_methods := [NodeSearchMethod.cosimeSimilarity]
    reranker := NodeReranker.rrf
    sim_min_score := 0
    mmr_lambda := 1 / 2
    bfs_max_depth := 3 }

/-- `search/config.rs`: `EdgeSearchConfig`. -/
structure EdgeSearchConfig where
  search_methods : List EdgeSearchMethod
  reranker : EdgeReranker
  sim_min_score : Rat
  mmr_lambda : Rat
  bfs_max_depth : Int
deriving DecidableEq

/-- `EdgeSearchConfig::default`. -/
def EdgeSearchConfig.default : EdgeSearchConfig :=
  { search_methods := [EdgeSearchMethod.cosimeSimilarity]
    reranker := EdgeReranker.rrf
    sim_min_score := 0
    mmr_lambda := 1 / 2
    bfs_max_depth := 3 }

/-- `search/config.rs`: `EpisodeSearchConfig`. -/
structure EpisodeSearchConfig where
  search_methods : List EpisodeSearchMethod
  reranker : EpisodeReranker
  sim_min_score : Rat
  mmr_lambda : Rat
deriving DecidableEq

/-- `EpisodeSearchConfig::default`. -/
def EpisodeSearchConfig.default : EpisodeSearchConfig :=
  { search_methods := [EpisodeSearchMethod.bm25]
    reranker := EpisodeReranker.rrf
    sim_min_score := 0
    mmr_lambda := 1 / 2 }

/-- `search/config.rs`: `CommunitySearchConfig`. -/
structure CommunitySearchConfig where
  search_methods : List CommunitySearchMethod
  reranker : CommunityReranker
  sim_min_score : Rat
  mmr_lambda : Rat
deriving DecidableEq

/-- `CommunitySearchConfig::default`. -/
def CommunitySearchConfig.default : CommunitySearchConfig :=
  { search_methods := [CommunitySearchMethod.cosimeSimilarity]
    reranker := CommunityReranker.rrf
    sim_min_score := 0
    mmr_lambda := 1 / 2 }

/-- `search/config.rs`: `SearchConfig`. -/
structure SearchConfig where
  node_search_config : NodeSearchConfig
  edge_search_config : EdgeSearchConfig
  episode_search_config : EpisodeSearchConfig
  community_search_config : CommunitySearchConfig
  limit : Nat
deriving DecidableEq

/-- `SearchConfig::default` (`DEFAULT_SEARCH_LIMIT = 10`). -/
def SearchConfig.default : SearchConfig :=
  { node_search_config := NodeSearchConfig.default
    edge_search_config := EdgeSearchConfig.default
    episode_search_config := EpisodeSearchConfig.default
    community_search_config := CommunitySearchConfig.default
    limit := 10 }

/-- `search/config.rs`: `SearchResults`. -/
structure SearchResults where
  nodes : List (SearchResult EntityNode)
  edges : List (SearchResult EntityEdge)
  episodes : List (SearchResult EpisodicNode)
  communities : List (SearchResult CommunityNode)
deriving DecidableEq

/-! ## Search execution (`search/search.rs`, `search/utils.rs`)

The external collaborators of the search layer — cache, embedder, graph
driver, serde — are modelled as oracle fields of `SearchEnv`; every modelled
function additionally returns the trace of port calls it performs, in order.
-/

/-- Oracles for the search layer's collaborators. -/
structure SearchEnv where
  /-- `cache.get`: bytes stored under a key; `none` is a miss (cache errors
  are not modelled). -/
  cacheGet : String → Option Bytes
  /-- `serde_json::from_slice::<Vec<f32>>` on cached bytes. -/
  decodeVec : Bytes → Option (List Rat)
  /-- `serde_json::from_slice::<SearchResults>` on cached bytes. -/
  decodeResults : Bytes → Option SearchResults
  /-- `embedder.embed_query`. -/
  embedQuery : String → List Rat
  /-- `serde_json::to_string` of a config, used in the whole-search cache
  key. -/
  renderConfig : SearchConfig → String
  /-- `serde_json::to_string` of the filters, used in the whole-search cache
  key. -/
  renderFilters : SearchFilters → String
  /-- `format!("{:?}", group_ids)`, used in the whole-search cache key. -/
  renderGids : Option (List String) → String
  /-- Rows returned by the node vector-search Cypher query, with the row loop
  (placeholder nodes carrying the driver's scores) already applied. -/
  nodeVectorRows : List (SearchResult EntityNode)
  /-- Rows returned by the node full-text Cypher query, likewise. -/
  nodeFulltextRows : List (SearchResult EntityNode)
  /-- Rows returned by the episode full-text Cypher query, likewise. -/
  episodeRows : List (SearchResult EpisodicNode)

/-- One step of the stable descending insertion used to model
`sort_by(|a, b| b.score.partial_cmp(&a.score).unwrap_or(Equal))`: the new
element passes every earlier element whose score is not strictly smaller, so
ties keep their original relative order. -/
def insertByScoreDesc {α : Type} (r : SearchResult α) :
    List (SearchResult α) → List (SearchResult α)
  | [] => [r]
  | x :: xs => if x.score < r.score then r :: x :: xs else x :: insertByScoreDesc r xs

/-- Stable sort by score descending (Rust's `sort_by` is stable; for a total
comparator the stable sorted permutation is unique, so insertion sort models
it exactly). -/
def sortByScoreDesc {α : Type} (l : List (SearchResult α)) : List (SearchResult α) :=
  l.foldl (fun acc r => insertByScoreDesc r acc) []

/-- The run scanner of `dedup_by`: `prev` is the last retained result; a
result whose item uuid matches it is dropped, any other becomes the new
`prev`. -/
def dedupGo {α : Type} (uuidOf : α → String) (prev : SearchResult α) :
    List (SearchResult α) → List (SearchResult α)
  | [] => []
  | y :: rest =>
    if uuidOf y.item = uuidOf prev.item then dedupGo uuidOf prev rest
    else y :: dedupGo uuidOf y rest

/-- `dedup_by(|a, b| a.item.uuid() == b.item.uuid())`: remove all but the
first of consecutive results with the same item uuid. -/
def dedupByUuid {α : Type} (uuidOf : α → String) :
    List (SearchResult α) → List (SearchResult α)
  | [] => []
  | x :: rest => x :: dedupGo uuidOf x rest

/-- The shared tail of every `search_*` method: stable sort descending by
score, drop adjacent uuid-duplicates, truncate to `limit`. -/
def rankResults {α : Type} (uuidOf : α → String) (l : List (SearchResult α))
    (limit : Nat) : List (SearchResult α) :=
  (dedupByUuid uuidOf (sortByScoreDesc l)).take limit

/-- `search/utils.rs`: `node_similarity_search`.  Early-out on `limit == 0`,
an empty query vector, or an explicitly empty group list; otherwise one
vector-index query against the store, whose rows are sorted by score
descending. -/
def node_similarity_search (env : SearchEnv) (query_vector : List Rat)
    (filters : SearchFilters) (group_ids : Option (List String)) (limit : Nat) :
    List (SearchResult EntityNode) × List PortCall :=
  if limit = 0 ∨ query_vector = [] then ([], [])
  else
    match group_ids with
    | some groups =>
      if groups = [] then ([], [])
      else (sortByScoreDesc env.nodeVectorRows, [PortCall.storeExec "node_vector_query"])
    | none => (sortByScoreDesc env.nodeVectorRows, [PortCall.storeExec "node_vector_query"])

/-- `search/utils.rs`: `node_fulltext_search`.  Early-out on an empty query
or `limit == 0`; otherwise one full-text query against the store (row order
kept). -/
def node_fulltext_search (env : SearchEnv) (query : String)
    (filters : SearchFilters) (group_ids : Option (List String)) (limit : Nat) :
    List (SearchResult EntityNode) × List PortCall :=
  if query = "" ∨ limit = 0 then ([], [])
  else (env.nodeFulltextRows, [PortCall.storeExec "node_fulltext_query"])

/-- `search/utils.rs`: `edge_similarity_search` — a stub in the source
(`TODO: Implement proper Neo4j vector similarity search`): builds the filter
query locally and returns the empty vector without touching any port. -/
def edge_similarity_search (env : SearchEnv) (search_vector : List Rat)
    (filters : SearchFilters) (group_ids : Option (List String)) (limit : Nat) :
    List (SearchResult EntityEdge) × List PortCall :=
  ([], [])

/-- `search/utils.rs`: `edge_fulltext_search` — computes `fulltext_query` and
returns empty either way; the store query is a `TODO` stub, so no port is
called. -/
def edge_fulltext_search (env : SearchEnv) (query : String)
    (filters : SearchFilters) (group_ids : Option (List String)) (limit : Nat) :
    List (SearchResult EntityEdge) × List PortCall :=
  let fuzzy_query := fulltext_query query group_ids
  if fuzzy_query = "" then ([], []) else ([], [])

/-- `search/utils.rs`: `edge_bfs_search` — returns empty when no origin nodes
are given (the only way `search_edges` calls it); the traversal itself is a
`TODO` stub. -/
def edge_bfs_search (env : SearchEnv)
    (bfs_origin_node_uuids : Option (List String)) (max_depth : Int)
    (filters : SearchFilters) (limit : Nat) :
    List (SearchResult EntityEdge) × List PortCall :=
  match bfs_origin_node_uuids with
  | none => ([], [])
  | some origin_uuids => if origin_uuids = [] then ([], []) else ([], [])

/-- `search/utils.rs`: `episode_fulltext_search`.  Early-out on an empty
query or `limit == 0`; sanitizes, builds the (doubly sanitized) full-text
query, early-outs when it is empty, otherwise queries the store. -/
def episode_fulltext_search (env : SearchEnv) (query : String)
    (filters : SearchFilters) (group_ids : Option (List String)) (limit : Nat) :
    List (SearchResult EpisodicNode) × List PortCall :=
  if query = "" ∨ limit = 0 then ([], [])
  else
    let sanitized_query := lucene_sanitize query
    let search_query := fulltext_query sanitized_query group_ids
    if search_query = "" then ([], [])
    else (env.episodeRows, [PortCall.storeExec "episode_fulltext_query"])

/-- `search/utils.rs`: `community_similarity_search` — `TODO` stub, empty
without port calls. -/
def community_similarity_search (env : SearchEnv) (query_vector : List Rat)
    (limit : Nat) : List (SearchResult CommunityNode) × List PortCall :=
  ([], [])

/-- `search/utils.rs`: `community_fulltext_search` — computes
`fulltext_query`; the store query is a `TODO` stub, so empty either way. -/
def community_fulltext_search (env : SearchEnv) (query : String)
    (group_ids : Option (List String)) (limit : Nat) :
    List (SearchResult CommunityNode) × List PortCall :=
  let fuzzy_query := fulltext_query query group_ids
  if fuzzy_query = "" then ([], []) else ([], [])

/-- The query-embedding preamble of `GraphitiSearch::search_nodes`: when a
similarity method is configured, consult the cache under
`"embedding:" ++ query` and fall back to the embedder (caching the fresh
vector) on a miss or an undecodable entry. -/
def nodeQueryVector (env : SearchEnv) (query : String)
    (search_methods : List NodeSearchMethod) : Option (List Rat) × List PortCall :=
  if NodeSearchMethod.cosimeSimilarity ∈ search_methods then
    match env.cacheGet ("embedding:" ++ query) with
    | some bytes =>
      match env.decodeVec bytes with
      | some cached_vector =>
        (some cached_vector, [PortCall.cacheGet ("embedding:" ++ query)])
      | none =>
        (some (env.embedQuery query),
          [PortCall.cacheGet ("embedding:" ++ query), PortCall.embed query,
            PortCall.cacheSet ("embedding:" ++ query)])
    | none =>
      (some (env.embedQuery query),
        [PortCall.cacheGet ("embedding:" ++ query), PortCall.embed query,
          PortCall.cacheSet ("embedding:" ++ query)])
  else (none, [])

/-- The per-method dispatch of `search_nodes` (`qvec` is the query vector
computed once before the loop). -/
def searchNodesStep (env : SearchEnv) (query : String) (filters : SearchFilters)
    (group_ids : Option (List String)) (limit : Nat) (qvec : Option (List Rat))
    (acc : List (SearchResult EntityNode) × List PortCall)
    (method : NodeSearchMethod) :
    List (SearchResult EntityNode) × List PortCall :=
  match method with
  | NodeSearchMethod.cosimeSimilarity =>
    match qvec with
    | some vector =>
      let r := node_similarity_search env vector filters group_ids (limit * 2)
      (acc.1 ++ r.1, acc.2 ++ r.2)
    | none => acc
  | NodeSearchMethod.bm25 =>
    let r := node_fulltext_search env query filters group_ids (limit * 2)
    (acc.1 ++ r.1, acc.2 ++ r.2)
  | NodeSearchMethod.bfs => acc

/-- `GraphitiSearch::search_nodes`: dispatch the configured methods (BFS is
skipped in the source), then sort / dedup / truncate. -/
def search_nodes (env : SearchEnv) (query : String)
    (search_methods : List NodeSearchMethod) (filters : SearchFilters)
    (group_ids : Option (List String)) (limit : Nat) :
    List (SearchResult EntityNode) × List PortCall :=
  if search_methods = [] then ([], [])
  else
    let qv := nodeQueryVector env query search_methods
    let all := search_methods.foldl
      (searchNodesStep env query filters group_ids limit qv.1) ([], [])
    (rankResults (fun n => n.base.uuid) all.1 limit, qv.2 ++ all.2)

/-- The per-method dispatch of `search_edges`. -/
def searchEdgesStep (env : SearchEnv) (query : String) (filters : SearchFilters)
    (group_ids : Option (List String)) (limit : Nat) (qvec : Option (List Rat))
    (acc : List (SearchResult EntityEdge) × List PortCall)
    (method : EdgeSearchMethod) :
    List (SearchResult EntityEdge) × List PortCall :=
  match method with
  | EdgeSearchMethod.cosimeSimilarity =>
    match qvec with
    | some vector =>
      let r := edge_similarity_search env vector filters group_ids (limit * 2)
      (acc.1 ++ r.1, acc.2 ++ r.2)
    | none => acc
  | EdgeSearchMethod.bm25 =>
    let r := edge_fulltext_search env query filters group_ids (limit * 2)
    (acc.1 ++ r.1, acc.2 ++ r.2)
  | EdgeSearchMethod.bfs =>
    let r := edge_bfs_search env none 3 filters (limit * 2)
    (acc.1 ++ r.1, acc.2 ++ r.2)

/-- `GraphitiSearch::search_edges`: embed when similarity is configured (no
embedding cache on this path), dispatch, then sort / dedup / truncate. -/
def search_edges (env : SearchEnv) (query : String)
    (search_methods : List EdgeSearchMethod) (filters : SearchFilters)
    (group_ids : Option (List String)) (limit : Nat) :
    List (SearchResult EntityEdge) × List PortCall :=
  if search_methods = [] then ([], [])
  else
    let qv : Option (List Rat) × List PortCall :=
      if EdgeSearchMethod.cosimeSimilarity ∈ search_methods then
        (some (env.embedQuery query), [PortCall.embed query])
      else (none, [])
    let all := search_methods.foldl
      (searchEdgesStep env query filters group_ids limit qv.1) ([], [])
    (rankResults (fun e => e.base.uuid) all.1 limit, qv.2 ++ all.2)

/-- The per-method dispatch of `search_episodes`. -/
def searchEpisodesStep (env : SearchEnv) (query : String) (filters : SearchFilters)
    (group_ids : Option (List String)) (limit : Nat)
    (acc : List (SearchResult EpisodicNode) × List PortCall)
    (method : EpisodeSearchMethod) :
    List (SearchResult EpisodicNode) × List PortCall :=
  match method with
  | EpisodeSearchMethod.bm25 =>
    let r := episode_fulltext_search env query filters group_ids (limit * 2)
    (acc.1 ++ r.1, acc.2 ++ r.2)

/-- `GraphitiSearch::search_episodes`: BM25 only, then sort / dedup /
truncate. -/
def search_episodes (env : SearchEnv) (query : String)
    (search_methods : List EpisodeSearchMethod) (filters : SearchFilters)
    (group_ids : Option (List String)) (limit : Nat) :
    List (SearchResult EpisodicNode) × List PortCall :=
  if search_methods = [] then ([], [])
  else
    let all := search_methods.foldl
      (searchEpisodesStep env query filters group_ids limit) ([], [])
    (rankResults (fun e => e.base.uuid) all.1 limit, all.2)

/-- The per-method dispatch of `search_communities`. -/
def searchCommunitiesStep (env : SearchEnv) (query : String)
    (group_ids : Option (List String)) (limit : Nat) (qvec : Option (List Rat))
    (acc : List (SearchResult CommunityNode) × List PortCall)
    (method : CommunitySearchMethod) :
    List (SearchResult CommunityNode) × List PortCall :=
  match method with
  | CommunitySearchMethod.cosimeSimilarity =>
    match qvec with
    | some vector =>
      let r := community_similarity_search env vector (limit * 2)
      (acc.1 ++ r.1, acc.2 ++ r.2)
    | none => acc
  | CommunitySearchMethod.bm25 =>
    let r := community_fulltext_search env query group_ids (limit * 2)
    (acc.1 ++ r.1, acc.2 ++ r.2)

/-- `GraphitiSearch::search_communities`: embed when similarity is
configured, dispatch the two (stubbed) methods, then sort / dedup /
truncate. -/
def search_communities (env : SearchEnv) (query : String)
    (search_methods : List CommunitySearchMethod) (filters : SearchFilters)
    (group_ids : Option (List String)) (limit : Nat) :
    List (SearchResult CommunityNode) × List PortCall :=
  if search_methods = [] then ([], [])
  else
    let qv : Option (List Rat) × List PortCall :=
      if CommunitySearchMethod.cosimeSimilarity ∈ search_methods then
        (some (env.embedQuery query), [PortCall.embed query])
      else (none, [])
    let all := search_methods.foldl
      (searchCommunitiesStep env query group_ids limit qv.1) ([], [])
    (rankResults (fun c => c.base.uuid) all.1 limit, qv.2 ++ all.2)

/-- The whole-search cache key
`format!("search:{}:{}:{:?}:{:?}", query, json(config), json(filters), gids)`. -/
def searchCacheKey (env : SearchEnv) (query : String) (config : SearchConfig)
    (filters : SearchFilters) (group_ids : Option (List String)) : String :=
  "search:" ++ query ++ ":" ++ env.renderConfig config ++ ":" ++
    env.renderFilters filters ++ ":" ++ env.renderGids group_ids

/-- The uncached body of `GraphitiSearch::search`: the four per-kind
searches in order, then the cache write of the combined results. -/
def searchUncached (env : SearchEnv) (query : String) (config : SearchConfig)
    (filters : SearchFilters) (group_ids : Option (List String))
    (cache_key : String) : SearchResults × List PortCall :=
  let n := search_nodes env query config.node_search_config.search_methods
    filters group_ids config.limit
  let e := search_edges env query config.edge_search_config.search_methods
    filters group_ids config.limit
  let ep := search_episodes env query config.episode_search_config.search_methods
    filters group_ids config.limit
  let c := search_communities env query config.community_search_config.search_methods
    filters group_ids config.limit
  ({ nodes := n.1, edges := e.1, episodes := ep.1, communities := c.1 },
    n.2 ++ e.2 ++ ep.2 ++ c.2 ++ [PortCall.cacheSet cache_key])

/-- `GraphitiSearch::search`: consult the whole-search cache first (returning
a decodable hit verbatim), otherwise run the four per-kind searches and cache
the combined results. -/
def search (env : SearchEnv) (query : String) (config : SearchConfig)
    (filters : SearchFilters) (group_ids : Option (List String)) :
    SearchResults × List PortCall :=
  let cache_key := searchCacheKey env query config filters group_ids
  match env.cacheGet cache_key with
  | some bytes =>
    match env.decodeResults bytes with
    | some cached_results => (cached_results, [PortCall.cacheGet cache_key])
    | none =>
      let r := searchUncached env query config filters group_ids cache_key
      (r.1, PortCall.cacheGet cache_key :: r.2)
  | none =>
    let r := searchUncached env query config filters group_ids cache_key
    (r.1, PortCall.cacheGet cache_key :: r.2)

/-! ## Concrete fixtures for closed test instances -/

/-- A concrete entity node with uuid `"a"`. -/
def testNodeA : EntityNode :=
  { base := BaseNode.new "a" 0 "Alice" "g", summary := "", summary_embedding := none }

/-- A concrete entity node with uuid `"b"`. -/
def testNodeB : EntityNode :=
  { base := BaseNode.new "b" 0 "Acme" "g", summary := "", summary_embedding := none }

/-- A concrete search environment: the cache always misses, the embedder
returns a fixed one-dimensional vector, and the node vector query returns two
rows that tie on score, with uuid `"b"` arriving before uuid `"a"`. -/
def testEnv : SearchEnv :=
  { cacheGet := fun _ => none
    decodeVec := fun _ => none
    decodeResults := fun _ => none
    embedQuery := fun _ => [1]
    renderConfig := fun _ => "cfg"
    renderFilters := fun _ => "filters"
    renderGids := fun _ => "gids"
    nodeVectorRows := [{ item := testNodeB, score := 1 }, { item := testNodeA, score := 1 }]
    nodeFulltextRows := []
    episodeRows := [] }

/-! # Theorems -/

/-! ## C1 — `add_episode` builds the episode but persists nothing -/

/-- C1: for every call, `add_episode` constructs the Episode node with the
fresh uuid, the provided `group_id`, `valid_at = reference_time ?? now`, and
content governed by `store_raw_episode_content`, and returns empty node and
edge sets — but its trace of port calls is empty: in particular the Episode
node is never written to the graph store, contradicting the claim's
persistence requirement (the save is commented out in the source as a
`TODO`). -/
theorem add_episode_builds_episode_without_persisting
    (store_raw_episode_content : Bool) (uuid : String) (now : DateTime)
    (name content : String) (source : EpisodeType)
    (source_description group_id : String) (reference_time : Option DateTime) :
    (add_episode store_raw_episode_content uuid now name content source
        source_description group_id reference_time).1.episode.base.uuid = uuid ∧
    (add_episode store_raw_episode_content uuid now name content source
        source_description group_id reference_time).1.episode.base.group_id = group_id ∧
    (add_episode store_raw_episode_content uuid now name content source
        source_description group_id reference_time).1.episode.valid_at
      = reference_time.getD now ∧
    (add_episode store_raw_episode_content uuid now name content source
        source_description group_id reference_time).1.episode.content
      = (if store_raw_episode_content then content else "") ∧
    (add_episode store_raw_episode_content uuid now name content source
        source_description group_id reference_time).1.nodes = [] ∧
    (add_episode store_raw_episode_content uuid now name content source
        source_description group_id reference_time).1.edges = [] ∧
    (add_episode store_raw_episode_content uuid now name content source
        source_description group_id reference_time).2 = [] := by
  refine ⟨rfl, rfl, rfl, rfl, rfl, rfl, rfl⟩

/-! ## C2 — temporal bounds after writes -/

/-- C2 counterexample: `EntityEdge::with_invalid_at` writes `invalid_at`
without setting `expired_at`, and nothing enforces `valid_at ≤ invalid_at`:
an edge with `valid_at = 10` given `invalid_at = 5` violates both conjuncts
of the claimed invariant. -/
theorem with_invalid_at_breaks_claimed_invariant :
    ((EntityEdge.new "e1" 0 "g" "s" "t" "REL" "f" 10).with_invalid_at 5).valid_at = 10 ∧
    ((EntityEdge.new "e1" 0 "g" "s" "t" "REL" "f" 10).with_invalid_at 5).invalid_at = some 5 ∧
    ((EntityEdge.new "e1" 0 "g" "s" "t" "REL" "f" 10).with_invalid_at 5).expired_at = none ∧
    ¬(10 : Nat) ≤ 5 := by
  refine ⟨rfl, rfl, rfl, by decide⟩

/-- C2 (amended): `update_edge_temporal_bounds` stores the given bounds and
sets `expired_at = current_time` exactly when `invalid_at` is set, while
`with_invalid_at` sets `invalid_at` and leaves `expired_at` unchanged; no
operation constrains `valid_at ≤ invalid_at`. -/
theorem update_edge_temporal_bounds_expiry (edge : EntityEdge)
    (valid_at invalid_at : Option DateTime) (current_time : DateTime) :
    (update_edge_temporal_bounds edge valid_at invalid_at current_time).invalid_at
        = invalid_at ∧
    (update_edge_temporal_bounds edge valid_at invalid_at current_time).expired_at
        = (if invalid_at.isSome then some current_time else edge.expired_at) ∧
    (∀ e : EntityEdge, ∀ t : DateTime,
      (e.with_invalid_at t).invalid_at = some t ∧
      (e.with_invalid_at t).expired_at = e.expired_at) := by
  exact ⟨rfl, rfl, fun e t => ⟨rfl, rfl⟩⟩

/-! ## C7 — cache key determinism and collisions -/

/-- C7 counterexample: the key is the SHA-256 of the pipe-join, and the join
is not injective — the distinct component lists `["a|b"]` and `["a", "b"]`
produce identical cache keys. -/
theorem generate_cache_key_join_collision :
    generate_cache_key ["a|b"] = generate_cache_key ["a", "b"] ∧
    (["a|b"] : List String) ≠ ["a", "b"] := by
  exact ⟨rfl, by decide⟩

/-- C7 (amended): `generate_cache_key` is deterministic and depends only on
`join("|", components)` — any two component lists with the same pipe-join
(identical lists in particular) receive identical keys; lists whose joins
coincide, such as `["a|b"]` and `["a", "b"]`, therefore collide. -/
theorem generate_cache_key_depends_on_join (c1 c2 : List String)
    (h : String.intercalate "|" c1 = String.intercalate "|" c2) :
    generate_cache_key c1 = generate_cache_key c2 := by
  unfold generate_cache_key
  rw [h]

/-- C7 witness: `generate_cache_key_depends_on_join` at the concrete lists
`["a", "b", "c"]` and `["a|b", "c"]`. -/
theorem generate_cache_key_depends_on_join_witness :
    generate_cache_key ["a", "b", "c"] = generate_cache_key ["a|b", "c"] :=
  generate_cache_key_depends_on_join ["a", "b", "c"] ["a|b", "c"] (by decide)

/-! ## C10 — bulk episodes -/

/-- Helper: each episode constructed by the bulk flow carries group
`"default"`, creation and validity time equal to the raw reference time, and
flag-controlled content; the two projected result vectors are constantly
empty.  Proven for every starting uuid index. -/
theorem bulkEpisodes_spec (store_raw : Bool) (supply : Nat → String) (now : DateTime) :
    ∀ (raws : List RawEpisode) (i : Nat),
      List.Forall₂ (fun (raw : RawEpisode) (ep : EpisodicNode) =>
          ep.base.group_id = "default" ∧
          ep.base.created_at = raw.reference_time ∧
          ep.valid_at = raw.reference_time ∧
          ep.content = (if store_raw then raw.content else ""))
        raws (bulkEpisodes store_raw supply now i raws) ∧
      (bulkEpisodes store_raw supply now i raws).length = raws.length := by
  intro raws
  induction raws with
  | nil => intro i; exact ⟨List.Forall₂.nil, rfl⟩
  | cons raw rest ih =>
    intro i
    refine ⟨List.Forall₂.cons ⟨rfl, rfl, rfl, rfl⟩ (ih (i + 1)).1, ?_⟩
    simp [bulkEpisodes, (ih (i + 1)).2]

/-- C10: every result of `add_episodes_bulk` carries an episode with
`group_id = "default"` (the caller cannot supply a group), with `created_at`
and `valid_at` both equal to the raw episode's `reference_time`, and all
results carry the same (empty) nodes list and the same (empty) edges list. -/
theorem add_episodes_bulk_results (store_raw : Bool) (supply : Nat → String)
    (now : DateTime) (raws : List RawEpisode) :
    List.Forall₂ (fun (raw : RawEpisode) (r : AddEpisodeResults) =>
        r.episode.base.group_id = "default" ∧
        r.episode.base.created_at = raw.reference_time ∧
        r.episode.valid_at = raw.reference_time ∧
        r.nodes = [] ∧
        r.edges = [])
      raws (add_episodes_bulk store_raw supply now raws) ∧
    (add_episodes_bulk store_raw supply now raws).map AddEpisodeResults.nodes
      = List.replicate raws.length [] ∧
    (add_episodes_bulk store_raw supply now raws).map AddEpisodeResults.edges
      = List.replicate raws.length [] := by
  obtain ⟨hfa, hlen⟩ := bulkEpisodes_spec store_raw supply now raws 0
  unfold add_episodes_bulk
  refine ⟨?_, ?_, ?_⟩
  · rw [List.forall₂_map_right_iff]
    exact hfa.imp fun {raw ep} h => ⟨h.1, h.2.1, h.2.2.1, rfl, rfl⟩
  · simp [List.map_map, Function.comp_def, hlen, List.map_const']
  · simp [List.map_map, Function.comp_def, hlen, List.map_const']

/-! ## C8 — corrupt disk-cache entries -/

/-- The modelled bincode codec round-trips every entry. -/
theorem CacheEntry.from_bytes_to_bytes (e : CacheEntry) :
    CacheEntry.from_bytes (CacheEntry.to_bytes e) = some e := by
  obtain ⟨data, expires, created⟩ := e
  cases expires with
  | none =>
    simp [CacheEntry.to_bytes, CacheEntry.from_bytes, List.append_assoc,
      List.length_append]
  | some t =>
    simp [CacheEntry.to_bytes, CacheEntry.from_bytes, List.append_assoc,
      List.length_append]

/-- Upserting then looking up the same key yields the new value. -/
theorem alookup_alistPut {β : Type} (m : List (String × β)) (k : String) (v : β) :
    alookup (alistPut m k v) k = some v := by
  induction m with
  | nil => simp [alistPut, alookup]
  | cons p rest ih =>
    by_cases h : p.1 = k
    · simp [alistPut, alookup, h]
    · simp [alistPut, alookup, h, ih]

/-- C8 counterexample: a stored value that fails to deserialize makes
`DiskCache::get` propagate a cache error (`from_bytes(&value)?`) with the
state unchanged — it is not treated as a miss, no miss is counted, and
`Ok(None)` is not returned. -/
theorem disk_cache_corrupt_entry_is_error :
    (DiskCache.get { store := [("k", [])], hits := 0, misses := 0 } "k" 1000).1
      = Except.error "Failed to deserialize cache entry" ∧
    (DiskCache.get { store := [("k", [])], hits := 0, misses := 0 } "k" 1000).1
      ≠ Except.ok none ∧
    (DiskCache.get { store := [("k", [])], hits := 0, misses := 0 } "k" 1000).2
      = { store := [("k", [])], hits := 0, misses := 0 } := by
  exact ⟨rfl, fun h => Except.noConfusion h, rfl⟩

/-- C8 (amended): for every key whose stored bytes fail to deserialize,
`get` returns the deserialization error with the state (and so the miss
counter) unchanged; a subsequent `set` overwrites the corrupt bytes with a
fresh serialized entry that deserializes again. -/
theorem disk_cache_corrupt_entry_behavior (st : DiskCacheState) (key : String)
    (bytes : Bytes) (now : Nat) (value : Bytes) (ttl now2 : Nat)
    (hlook : alookup st.store key = some bytes)
    (hbad : CacheEntry.from_bytes bytes = none) :
    (DiskCache.get st key now).1 = Except.error "Failed to deserialize cache entry" ∧
    (DiskCache.get st key now).2 = st ∧
    alookup (DiskCache.set st key value ttl now2).store key
      = some (CacheEntry.to_bytes (CacheEntry.new value (some ttl) now2)) ∧
    CacheEntry.from_bytes (CacheEntry.to_bytes (CacheEntry.new value (some ttl) now2))
      = some (CacheEntry.new value (some ttl) now2) := by
  refine ⟨?_, ?_, ?_, ?_⟩
  · simp [DiskCache.get, hlook, hbad]
  · simp [DiskCache.get, hlook, hbad]
  · simp [DiskCache.set, DiskCache.set_with_ttl, alookup_alistPut]
  · exact CacheEntry.from_bytes_to_bytes _

/-- C8 witness: `disk_cache_corrupt_entry_behavior` at a concrete state whose
stored bytes `[9, 9]` are not a serialized entry. -/
theorem disk_cache_corrupt_entry_behavior_witness :
    (DiskCache.get { store := [("k", [9, 9])], hits := 0, misses := 0 } "k" 50).1
      = Except.error "Failed to deserialize cache entry" ∧
    alookup (DiskCache.set { store := [("k", [9, 9])], hits := 0, misses := 0 }
        "k" [7] 100 60).store "k"
      = some (CacheEntry.to_bytes (CacheEntry.new [7] (some 100) 60)) := by
  obtain ⟨h1, _, h3, _⟩ :=
    disk_cache_corrupt_entry_behavior
      { store := [("k", [9, 9])], hits := 0, misses := 0 } "k" [9, 9] 50 [7] 100 60
      (by decide) (by decide)
  exact ⟨h1, h3⟩

/-! ## C4 — `fulltext_query` escaping and length cap -/

/-- String concatenation concatenates the underlying character lists. -/
theorem strData_append (a b : String) : (a ++ b).data = a.data ++ b.data := rfl

/-- Every reserved character present in the input shows up backslash-escaped
in the sanitized string. -/
theorem lucene_sanitize_escapes (q : String) (c : Char)
    (hc : c ∈ luceneSpecial) (hq : c ∈ q.data) :
    ['\\', c] <:+: (lucene_sanitize q).data := by
  have hmem : ['\\', c] ∈ q.data.map sanitizeChar := by
    refine List.mem_map.mpr ⟨c, hq, ?_⟩
    simp [sanitizeChar, hc]
  exact List.infix_of_mem_flatten hmem

/-- `fulltext_query` returns the empty string exactly when the token measure
reaches `MAX_QUERY_LENGTH`. -/
theorem fulltext_query_empty_iff (q : String) (gids : Option (List String)) :
    fulltext_query q gids = "" ↔ MAX_QUERY_LENGTH ≤ fulltextMeasure q gids := by
  constructor
  · intro h
    by_contra hlt
    simp only [fulltext_query.eq_def] at h
    rw [if_neg hlt] at h
    have hd := congrArg String.data h
    have hnil : (("" : String).data) = [] := rfl
    rw [hnil] at hd
    simp only [strData_append] at hd
    simp at hd
  · intro h
    simp only [fulltext_query.eq_def]
    rw [if_pos h]

/-- C4 counterexample: a query of 32 whitespace tokens containing the
reserved character `+` is dropped entirely — `fulltext_query` returns the
empty string, in which `+` does not appear backslash-escaped, refuting the
claim's escaping conjunct as stated. -/
theorem fulltext_query_long_query_unescaped :
    '+' ∈ ("+ a a a a a a a a a a a a a a a a a a a a a a a a a a a a a a a").data ∧
    fulltext_query "+ a a a a a a a a a a a a a a a a a a a a a a a a a a a a a a a"
      none = "" ∧
    ¬ ['\\', '+'] <:+:
      (fulltext_query "+ a a a a a a a a a a a a a a a a a a a a a a a a a a a a a a a"
        none).data := by
  refine ⟨by decide, by decide, ?_⟩
  rw [(by decide :
    fulltext_query "+ a a a a a a a a a a a a a a a a a a a a a a a a a a a a a a a"
      none = "")]
  simp [String.data]

/-- An infix of the character data of `s` is an infix of the data of any
string extending `s` on both sides. -/
theorem infix_data_wrap {l : List Char} (a s b : String) (h : l <:+: s.data) :
    l <:+: (a ++ s ++ b).data := by
  have hd : (a ++ s ++ b).data = a.data ++ s.data ++ b.data := by
    simp [strData_append]
  rw [hd]
  exact h.trans (List.infix_append _ _ _)

/-- C4 (amended): the output of `fulltext_query` is empty exactly when the
token measure (whitespace tokens of the sanitized query plus one clause per
group id) reaches 32; whenever the output is nonempty — equivalently, the
measure is under the cap — every reserved Lucene character occurring in the
query appears backslash-escaped in the output. -/
theorem fulltext_query_escapes_and_caps (q : String) (gids : Option (List String)) :
    (fulltext_query q gids = "" ↔ MAX_QUERY_LENGTH ≤ fulltextMeasure q gids) ∧
    (∀ c, c ∈ luceneSpecial → c ∈ q.data → fulltext_query q gids ≠ "" →
      ['\\', c] <:+: (fulltext_query q gids).data) := by
  refine ⟨fulltext_query_empty_iff q gids, ?_⟩
  intro c hc hq hne
  have hlt : ¬ MAX_QUERY_LENGTH ≤ fulltextMeasure q gids := fun h =>
    hne ((fulltext_query_empty_iff q gids).mpr h)
  have h1 : ['\\', c] <:+: (lucene_sanitize q).data := lucene_sanitize_escapes q c hc hq
  have hout : ∃ gf : String,
      fulltext_query q gids = (gf ++ "(") ++ lucene_sanitize q ++ ")" := by
    simp only [fulltext_query.eq_def]
    rw [if_neg hlt]
    exact ⟨_, rfl⟩
  obtain ⟨gf, hout⟩ := hout
  rw [hout]
  exact infix_data_wrap (gf ++ "(") (lucene_sanitize q) ")" h1

/-- C4 witness: `fulltext_query_escapes_and_caps` at the short query `"+a"`
with no group ids — the output is nonempty and contains the escaped `+`. -/
theorem fulltext_query_escapes_and_caps_witness :
    ['\\', '+'] <:+: (fulltext_query "+a" none).data :=
  (fulltext_query_escapes_and_caps "+a" none).2 '+' (by decide) (by decide) (by decide)

/-! ## C9 — `chunk_edges_by_nodes` -/

/-- Appending to a group's entry: the entry of the key receives the edge at
the end (`entry(key).or_default().push(edge)`). -/
theorem alookup_addToGroups_self (groups : List (String × List EntityEdge))
    (key : String) (e : EntityEdge) :
    alookup (addToGroups groups key e) key
      = some ((alookup groups key).getD [] ++ [e]) := by
  induction groups with
  | nil => simp [addToGroups, alookup]
  | cons p rest ih =>
    obtain ⟨k, es⟩ := p
    by_cases h : k = key
    · subst h
      simp [addToGroups, alookup]
    · simp [addToGroups, alookup, h, ih]

/-- Appending to a group's entry leaves every other entry unchanged. -/
theorem alookup_addToGroups_ne (groups : List (String × List EntityEdge))
    (key : String) (e : EntityEdge) (k : String) (h : k ≠ key) :
    alookup (addToGroups groups key e) k = alookup groups k := by
  induction groups with
  | nil => simp [addToGroups, alookup, Ne.symm h]
  | cons p rest ih =>
    obtain ⟨k', es⟩ := p
    by_cases h1 : k' = key
    · subst h1
      have h2 : ¬ k' = k := fun hh => h (hh.symm)
      simp [addToGroups, alookup, h2]
    · by_cases h2 : k' = k
      · subst h2
        simp [addToGroups, alookup, h1]
      · simp [addToGroups, alookup, h1, h2, ih]

/-- A successful association-list lookup exhibits a member pair. -/
theorem alookup_mem {β : Type} (m : List (String × β)) (k : String) (v : β)
    (h : alookup m k = some v) : (k, v) ∈ m := by
  induction m with
  | nil => simp [alookup] at h
  | cons p rest ih =>
    obtain ⟨k', v'⟩ := p
    by_cases hk : k' = k
    · subst hk
      simp [alookup] at h
      simp [h]
    · simp [alookup, hk] at h
      exact List.mem_cons_of_mem _ (ih h)

/-- `addToGroups` preserves the grouping invariant: every edge stored under a
key has that key as its sort key and is not a self-loop. -/
theorem addToGroups_inv (groups : List (String × List EntityEdge))
    (key : String) (e : EntityEdge)
    (hinv : ∀ p ∈ groups, ∀ x ∈ p.2, edgeSortKey x = p.1 ∧
      x.base.source_node_uuid ≠ x.base.target_node_uuid)
    (hkey : edgeSortKey e = key)
    (hsl : e.base.source_node_uuid ≠ e.base.target_node_uuid) :
    ∀ p ∈ addToGroups groups key e, ∀ x ∈ p.2, edgeSortKey x = p.1 ∧
      x.base.source_node_uuid ≠ x.base.target_node_uuid := by
  induction groups with
  | nil =>
    intro p hp x hx
    simp [addToGroups] at hp
    subst hp
    simp at hx
    subst hx
    exact ⟨hkey, hsl⟩
  | cons q rest ih =>
    obtain ⟨k, es⟩ := q
    by_cases h : k = key
    · subst h
      intro p hp x hx
      simp [addToGroups] at hp
      rcases hp with hp | hp
      · subst hp
        simp at hx
        rcases hx with hx | hx
        · exact hinv (k, es) (by simp) x hx
        · subst hx
          exact ⟨hkey, hsl⟩
      · exact hinv p (List.mem_cons_of_mem _ hp) x hx
    · intro p hp x hx
      simp [addToGroups, h] at hp
      rcases hp with hp | hp
      · subst hp
        exact hinv (k, es) (by simp) x hx
      · exact ih (fun p hp => hinv p (List.mem_cons_of_mem _ hp)) p hp x hx

/-- `chunkGo` preserves the grouping invariant. -/
theorem chunkGo_inv (edges : List EntityEdge) :
    ∀ groups : List (String × List EntityEdge),
      (∀ p ∈ groups, ∀ x ∈ p.2, edgeSortKey x = p.1 ∧
        x.base.source_node_uuid ≠ x.base.target_node_uuid) →
      ∀ p ∈ chunkGo groups edges, ∀ x ∈ p.2, edgeSortKey x = p.1 ∧
        x.base.source_node_uuid ≠ x.base.target_node_uuid := by
  induction edges with
  | nil => intro groups hinv; simpa [chunkGo] using hinv
  | cons e rest ih =>
    intro groups hinv
    by_cases hsl : e.base.source_node_uuid = e.base.target_node_uuid
    · simpa [chunkGo, hsl] using ih groups hinv
    · simpa [chunkGo, hsl] using
        ih (addToGroups groups (edgeSortKey e) e)
          (addToGroups_inv groups (edgeSortKey e) e hinv rfl hsl)

/-- Membership in a key's accumulated group is monotone along `addToGroups`. -/
theorem addToGroups_lookup_mono (groups : List (String × List EntityEdge))
    (key : String) (e : EntityEdge) (k : String) (x : EntityEdge)
    (h : x ∈ (alookup groups k).getD []) :
    x ∈ (alookup (addToGroups groups key e) k).getD [] := by
  by_cases hk : k = key
  · subst hk
    rw [alookup_addToGroups_self]
    simpa using Or.inl h
  · rwa [alookup_addToGroups_ne groups key e k hk]

/-- Membership in a key's accumulated group is monotone along `chunkGo`. -/
theorem chunkGo_lookup_mono (edges : List EntityEdge) :
    ∀ groups (k : String) (x : EntityEdge),
      x ∈ (alookup groups k).getD [] →
      x ∈ (alookup (chunkGo groups edges) k).getD [] := by
  induction edges with
  | nil => intro groups k x h; simpa [chunkGo] using h
  | cons e rest ih =>
    intro groups k x h
    by_cases hsl : e.base.source_node_uuid = e.base.target_node_uuid
    · simpa [chunkGo, hsl] using ih groups k x h
    · simpa [chunkGo, hsl] using
        ih (addToGroups groups (edgeSortKey e) e) k x
          (addToGroups_lookup_mono groups (edgeSortKey e) e k x h)

/-- Every non-self-loop input edge ends up in the accumulated group of its
sort key. -/
theorem chunkGo_mem_self (edges : List EntityEdge) :
    ∀ groups (e : EntityEdge), e ∈ edges →
      e.base.source_node_uuid ≠ e.base.target_node_uuid →
      e ∈ (alookup (chunkGo groups edges) (edgeSortKey e)).getD [] := by
  induction edges with
  | nil => intro groups e h; simp at h
  | cons e' rest ih =>
    intro groups e hmem hsl
    rcases List.mem_cons.mp hmem with he | he
    · subst he
      have hstep : e ∈ (alookup (addToGroups groups (edgeSortKey e) e)
          (edgeSortKey e)).getD [] := by
        rw [alookup_addToGroups_self]
        simp
      simpa [chunkGo, hsl] using
        chunkGo_lookup_mono rest (addToGroups groups (edgeSortKey e) e)
          (edgeSortKey e) e hstep
    · by_cases hsl' : e'.base.source_node_uuid = e'.base.target_node_uuid
      · simpa [chunkGo, hsl'] using ih groups e he hsl
      · simpa [chunkGo, hsl'] using
          ih (addToGroups groups (edgeSortKey e') e') e he hsl

/-- C9: `chunk_edges_by_nodes` drops every self-loop, and two non-self-loop
input edges land in a common group exactly when the sorted concatenations of
their endpoint UUIDs agree. -/
theorem chunk_edges_by_nodes_spec (edges : List EntityEdge) :
    (∀ g ∈ chunk_edges_by_nodes edges, ∀ e ∈ g,
      e.base.source_node_uuid ≠ e.base.target_node_uuid) ∧
    (∀ e1 e2 : EntityEdge, e1 ∈ edges → e2 ∈ edges →
      e1.base.source_node_uuid ≠ e1.base.target_node_uuid →
      e2.base.source_node_uuid ≠ e2.base.target_node_uuid →
      ((∃ g, g ∈ chunk_edges_by_nodes edges ∧ e1 ∈ g ∧ e2 ∈ g) ↔
        edgeSortKey e1 = edgeSortKey e2)) := by
  have hinv := chunkGo_inv edges [] (by simp)
  constructor
  · intro g hg e he
    obtain ⟨p, hp, hpg⟩ := List.mem_map.mp hg
    exact (hinv p hp e (hpg ▸ he)).2
  · intro e1 e2 h1 h2 hs1 hs2
    constructor
    · rintro ⟨g, hg, he1, he2⟩
      obtain ⟨p, hp, hpg⟩ := List.mem_map.mp hg
      have k1 := (hinv p hp e1 (hpg ▸ he1)).1
      have k2 := (hinv p hp e2 (hpg ▸ he2)).1
      rw [k1, k2]
    · intro hkey
      have m1 := chunkGo_mem_self edges [] e1 h1 hs1
      have m2 := chunkGo_mem_self edges [] e2 h2 hs2
      rw [hkey] at m1
      cases hlook : alookup (chunkGo [] edges) (edgeSortKey e2) with
      | none => rw [hlook] at m1; simp at m1
      | some es =>
        rw [hlook] at m1 m2
        simp at m1 m2
        refine ⟨es, ?_, m1, m2⟩
        exact List.mem_map.mpr ⟨(edgeSortKey e2, es), alookup_mem _ _ _ hlook, rfl⟩

/-- C9 witness: `chunk_edges_by_nodes_spec` at two concrete edges between
`"a"` and `"b"` in opposite directions: they share a group. -/
theorem chunk_edges_by_nodes_spec_witness :
    ∃ g, g ∈ chunk_edges_by_nodes
        [EntityEdge.new "e1" 0 "g" "a" "b" "R" "f" 0,
         EntityEdge.new "e2" 0 "g" "b" "a" "R" "f" 0] ∧
      EntityEdge.new "e1" 0 "g" "a" "b" "R" "f" 0 ∈ g ∧
      EntityEdge.new "e2" 0 "g" "b" "a" "R" "f" 0 ∈ g :=
  ((chunk_edges_by_nodes_spec
      [EntityEdge.new "e1" 0 "g" "a" "b" "R" "f" 0,
       EntityEdge.new "e2" 0 "g" "b" "a" "R" "f" 0]).2
    (EntityEdge.new "e1" 0 "g" "a" "b" "R" "f" 0)
    (EntityEdge.new "e2" 0 "g" "b" "a" "R" "f" 0)
    (by decide) (by decide) (by decide) (by decide)).mpr (by decide)

/-! ## C3 — `compress_uuid_map` -/

/-- Splitting an iterated lookup. -/
theorem stepN_add (m : List (String × String)) (a b : Nat) :
    ∀ v, stepN m (a + b) v = (stepN m a v).bind (stepN m b) := by
  induction a with
  | zero => intro v; simp [stepN]
  | succ a ih =>
    intro v
    have hs : a + 1 + b = (a + b) + 1 := by omega
    rw [hs]
    cases hl : alookup m v with
    | none => simp [stepN, hl]
    | some w => simp [stepN, hl, ih w]

/-- If the chase loop runs out of fuel, the chain passes through a key of the
map at every stage. -/
theorem chaseFuel_none_chain (m : List (String × String)) :
    ∀ (n : Nat) (v : String), chaseFuel m v n = none →
      ∀ i < n, ∃ w, stepN m i v = some w ∧ (alookup m w).isSome := by
  intro n
  induction n with
  | zero => intro v h i hi; omega
  | succ n ih =>
    intro v h i hi
    cases hl : alookup m v with
    | none => simp [chaseFuel, hl] at h
    | some w =>
      have h' : chaseFuel m w n = none := by simpa [chaseFuel, hl] using h
      cases i with
      | zero => exact ⟨v, by simp [stepN], by simp [hl]⟩
      | succ j =>
        obtain ⟨x, hx1, hx2⟩ := ih w h' j (by omega)
        exact ⟨x, by simp [stepN, hl, hx1], hx2⟩

/-- A successful lookup means the probe is a key. -/
theorem alookup_isSome_mem {β : Type} (m : List (String × β)) (w : String)
    (h : (alookup m w).isSome) : w ∈ m.map Prod.fst := by
  induction m with
  | nil => simp [alookup] at h
  | cons p rest ih =>
    obtain ⟨k', v'⟩ := p
    by_cases hp : k' = w
    · simp [hp]
    · simp only [alookup, if_neg hp] at h
      simpa using Or.inr (ih h)

/-- On an acyclic map the chase loop exits within `m.length + 1` iterations:
otherwise the chain visits `m.length + 1` keys and by pigeonhole repeats one,
which closes a cycle. -/
theorem chaseFuel_isSome_of_acyclic (m : List (String × String)) (hA : Acyclic m)
    (v : String) : (chaseFuel m v (m.length + 1)).isSome := by
  by_contra hno
  have hnone : chaseFuel m v (m.length + 1) = none := by
    cases hc : chaseFuel m v (m.length + 1) with
    | none => rfl
    | some t => rw [hc] at hno; simp at hno
  have hchain := chaseFuel_none_chain m (m.length + 1) v hnone
  have hmaps : ∀ i ∈ Finset.range (m.length + 1),
      (stepN m i v).getD "" ∈ (m.map Prod.fst).toFinset := by
    intro i hi
    obtain ⟨w, hw1, hw2⟩ := hchain i (Finset.mem_range.mp hi)
    rw [hw1]
    simpa using alookup_isSome_mem m w hw2
  have hcard : (m.map Prod.fst).toFinset.card < (Finset.range (m.length + 1)).card := by
    calc (m.map Prod.fst).toFinset.card
        ≤ (m.map Prod.fst).length := List.toFinset_card_le _
      _ = m.length := by simp
      _ < (Finset.range (m.length + 1)).card := by simp
  obtain ⟨a, ha, b, hb, hab, heq⟩ :=
    Finset.exists_ne_map_eq_of_card_lt_of_maps_to hcard hmaps
  have key : ∀ i j, i ∈ Finset.range (m.length + 1) → j ∈ Finset.range (m.length + 1) →
      i < j → (stepN m i v).getD "" = (stepN m j v).getD "" → False := by
    intro i j hi hj hij hEq
    obtain ⟨wi, hwi, _⟩ := hchain i (Finset.mem_range.mp hi)
    obtain ⟨wj, hwj, _⟩ := hchain j (Finset.mem_range.mp hj)
    rw [hwi, hwj] at hEq
    simp at hEq
    have hj' : i + (j - i) = j := by omega
    have hsplit : stepN m j v = (stepN m i v).bind (stepN m (j - i)) := by
      have hadd := stepN_add m i (j - i) v
      rwa [hj'] at hadd
    rw [hwi, hwj] at hsplit
    simp only [Option.bind] at hsplit
    have hcyc : stepN m (j - i) wi = some wi := by
      rw [← hsplit, hEq]
    have hpos : j - i = (j - i - 1) + 1 := by omega
    rw [hpos] at hcyc
    exact hA wi (j - i - 1) hcyc
  rcases hab.lt_or_lt with h | h
  · exact key a b ha hb h heq
  · exact key b a hb ha h heq.symm

/-- A chase that exits yields the terminal element of the chain: reachable by
iterated lookup and itself without an entry. -/
theorem chaseFuel_some_spec (m : List (String × String)) :
    ∀ (n : Nat) (v t : String), chaseFuel m v n = some t →
      alookup m t = none ∧ ∃ i, stepN m i v = some t := by
  intro n
  induction n with
  | zero => intro v t h; simp [chaseFuel] at h
  | succ n ih =>
    intro v t h
    cases hl : alookup m v with
    | none =>
      have hv : v = t := by simpa [chaseFuel, hl] using h
      subst hv
      exact ⟨hl, 0, by simp [stepN]⟩
    | some w =>
      have h' : chaseFuel m w n = some t := by simpa [chaseFuel, hl] using h
      obtain ⟨h1, i, h2⟩ := ih w t h'
      refine ⟨h1, i + 1, ?_⟩
      simpa [stepN, hl] using h2

/-- Lookup through a value-rewriting map. -/
theorem alookup_map_snd (m : List (String × String)) (g : String → String)
    (k : String) :
    alookup (m.map fun p => (p.1, g p.2)) k = (alookup m k).map g := by
  induction m with
  | nil => simp [alookup]
  | cons p rest ih =>
    obtain ⟨k', v⟩ := p
    by_cases h : k' = k
    · simp [alookup, h]
    · simp [alookup, h, ih]

/-- When every entry's chase exits, `compressGo` computes the full rewritten
map. -/
theorem compressGo_eq (m : List (String × String)) :
    ∀ l : List (String × String),
      (∀ p ∈ l, (chaseFuel m p.2 (m.length + 1)).isSome) →
      compressGo m l
        = some (l.map fun p => (p.1, (chaseFuel m p.2 (m.length + 1)).getD "")) := by
  intro l
  induction l with
  | nil => intro h; simp [compressGo]
  | cons p rest ih =>
    intro h
    obtain ⟨k, v⟩ := p
    obtain ⟨t, ht⟩ := Option.isSome_iff_exists.mp (h (k, v) (by simp))
    have hrest := ih fun q hq => h q (List.mem_cons_of_mem _ hq)
    simp [compressGo, ht, hrest]

/-- C3 (amended): on every acyclic UUID map, `compress_uuid_map` terminates
and returns the transitive closure — each key is sent to the terminal element
of its chain (reachable by iterated lookup and without a further entry), and
no returned value is itself a key of the result, so the result has no cycles
and no chain of length greater than one. -/
theorem compress_uuid_map_acyclic (m : List (String × String)) (hA : Acyclic m) :
    ∃ c, compress_uuid_map m = some c ∧
      (∀ k v, alookup m k = some v →
        ∃ t, alookup c k = some t ∧ alookup m t = none ∧ ∃ i, stepN m i v = some t) ∧
      (∀ k t, alookup c k = some t → alookup c t = none) := by
  have hterm : ∀ p ∈ m, (chaseFuel m p.2 (m.length + 1)).isSome :=
    fun p _ => chaseFuel_isSome_of_acyclic m hA p.2
  have hc : compress_uuid_map m
      = some (m.map fun p => (p.1, (chaseFuel m p.2 (m.length + 1)).getD "")) :=
    compressGo_eq m m hterm
  refine ⟨_, hc, ?_, ?_⟩
  · intro k v hkv
    obtain ⟨t, ht⟩ := Option.isSome_iff_exists.mp (chaseFuel_isSome_of_acyclic m hA v)
    have hlc : alookup (m.map fun p => (p.1, (chaseFuel m p.2 (m.length + 1)).getD "")) k
        = some t := by
      rw [alookup_map_snd _ (fun v => (chaseFuel m v (m.length + 1)).getD "") k, hkv]
      simp [ht]
    have hspec := chaseFuel_some_spec m (m.length + 1) v t ht
    exact ⟨t, hlc, hspec.1, hspec.2⟩
  · intro k t hkt
    rw [alookup_map_snd m (fun w => (chaseFuel m w (m.length + 1)).getD "") k] at hkt
    rw [alookup_map_snd m (fun w => (chaseFuel m w (m.length + 1)).getD "") t]
    cases hmk : alookup m k with
    | none => rw [hmk] at hkt; simp at hkt
    | some v =>
      rw [hmk] at hkt
      simp at hkt
      obtain ⟨t', ht'⟩ := Option.isSome_iff_exists.mp (chaseFuel_isSome_of_acyclic m hA v)
      have hterm' := (chaseFuel_some_spec m (m.length + 1) v t' ht').1
      have htt : t = t' := by rw [← hkt]; simp [ht']
      rw [htt, hterm']
      rfl

/-- C3 counterexample: on the cyclic map `a ↦ b ↦ a` the
`while let Some(next_value) = uuid_map.get(value)` loop of
`compress_uuid_map` never exits for either starting value, so the source
function does not terminate on this finite map (the fuelled model returns
`none` for every fuel). -/
theorem compress_uuid_map_cycle_diverges :
    ChaseDiverges [("a", "b"), ("b", "a")] "b" ∧
    ChaseDiverges [("a", "b"), ("b", "a")] "a" ∧
    compress_uuid_map [("a", "b"), ("b", "a")] = none := by
  have hpair : ∀ fuel, chaseFuel [("a", "b"), ("b", "a")] "a" fuel = none ∧
      chaseFuel [("a", "b"), ("b", "a")] "b" fuel = none := by
    intro fuel
    induction fuel with
    | zero => exact ⟨rfl, rfl⟩
    | succ n ih =>
      refine ⟨?_, ?_⟩
      · have hstep : chaseFuel [("a", "b"), ("b", "a")] "a" (n + 1)
            = chaseFuel [("a", "b"), ("b", "a")] "b" n := rfl
        rw [hstep]
        exact ih.2
      · have hstep : chaseFuel [("a", "b"), ("b", "a")] "b" (n + 1)
            = chaseFuel [("a", "b"), ("b", "a")] "a" n := rfl
        rw [hstep]
        exact ih.1
  exact ⟨fun fuel => (hpair fuel).2, fun fuel => (hpair fuel).1, by decide⟩

/-- C3 witness: `compress_uuid_map_acyclic` at the acyclic one-entry map
`[("a", "b")]`. -/
theorem compress_uuid_map_acyclic_witness :
    ∃ c, compress_uuid_map [("a", "b")] = some c ∧
      (∀ k v, alookup [("a", "b")] k = some v →
        ∃ t, alookup c k = some t ∧ alookup [("a", "b")] t = none ∧
          ∃ i, stepN [("a", "b")] i v = some t) ∧
      (∀ k t, alookup c k = some t → alookup c t = none) := by
  refine compress_uuid_map_acyclic [("a", "b")] ?_
  intro v n h
  by_cases hv : v = "a"
  · subst hv
    have hstep : stepN [("a", "b")] (n + 1) "a" = stepN [("a", "b")] n "b" := rfl
    rw [hstep] at h
    cases n with
    | zero => exact absurd h (by decide)
    | succ k =>
      have hnone : stepN [("a", "b")] (k + 1) "b" = none := rfl
      rw [hnone] at h
      exact Option.noConfusion h
  · have hl : alookup [("a", "b")] v = none := by
      simp [alookup, Ne.symm hv]
    have hnone : stepN [("a", "b")] (n + 1) v = none := by
      simp [stepN, hl]
    rw [hnone] at h
    exact Option.noConfusion h

/-! ## C6 — tie order in search results -/

/-- Inserting into the accumulator splits it: the new element lands right
after the elements whose score is not strictly smaller, and right before the
first element with a strictly smaller score. -/
theorem insertByScoreDesc_split {α : Type} (r : SearchResult α)
    (l : List (SearchResult α)) :
    ∃ l₁ l₂, l = l₁ ++ l₂ ∧ insertByScoreDesc r l = l₁ ++ r :: l₂ ∧
      (∀ x ∈ l₁, ¬ x.score < r.score) ∧
      (∀ y, l₂.head? = some y → y.score < r.score) := by
  induction l with
  | nil => exact ⟨[], [], rfl, rfl, by simp, by simp⟩
  | cons x xs ih =>
    by_cases h : x.score < r.score
    · refine ⟨[], x :: xs, rfl, ?_, by simp, ?_⟩
      · simp [insertByScoreDesc, h]
      · intro y hy
        simp at hy
        subst hy
        exact h
    · obtain ⟨l₁, l₂, h1, h2, h3, h4⟩ := ih
      refine ⟨x :: l₁, l₂, by simp [h1], ?_, ?_, h4⟩
      · simp [insertByScoreDesc, h, h2]
      · intro y hy
        rcases List.mem_cons.mp hy with hy | hy
        · subst hy; exact h
        · exact h3 y hy

/-- Membership through an insertion. -/
theorem mem_insertByScoreDesc {α : Type} {y r : SearchResult α}
    {l : List (SearchResult α)} :
    y ∈ insertByScoreDesc r l ↔ y = r ∨ y ∈ l := by
  obtain ⟨l₁, l₂, h1, h2, -, -⟩ := insertByScoreDesc_split r l
  subst h1
  rw [h2]
  simp [List.mem_append]
  tauto

/-- Insertion preserves the descending order of the accumulator. -/
theorem sortedDesc_insertByScoreDesc {α : Type} (r : SearchResult α)
    (l : List (SearchResult α))
    (h : List.Pairwise (fun a b => b.score ≤ a.score) l) :
    List.Pairwise (fun a b => b.score ≤ a.score) (insertByScoreDesc r l) := by
  induction l with
  | nil => simp [insertByScoreDesc]
  | cons x xs ih =>
    rcases List.pairwise_cons.mp h with ⟨hx, hxs⟩
    by_cases hlt : x.score < r.score
    · rw [show insertByScoreDesc r (x :: xs) = r :: x :: xs by
        simp [insertByScoreDesc, hlt]]
      refine List.pairwise_cons.mpr ⟨?_, h⟩
      intro y hy
      rcases List.mem_cons.mp hy with hy | hy
      · subst hy; exact le_of_lt hlt
      · exact le_trans (hx y hy) (le_of_lt hlt)
    · rw [show insertByScoreDesc r (x :: xs) = x :: insertByScoreDesc r xs by
        simp [insertByScoreDesc, hlt]]
      refine List.pairwise_cons.mpr ⟨?_, ih hxs⟩
      intro y hy
      rcases mem_insertByScoreDesc.mp hy with hy | hy
      · subst hy; exact le_of_not_lt hlt
      · exact hx y hy

/-- Inserting an element of a different score leaves a score class's
subsequence untouched. -/
theorem filter_insertByScoreDesc_ne {α : Type} (r : SearchResult α)
    (l : List (SearchResult α)) (c : Rat) (hne : ¬ r.score = c) :
    (insertByScoreDesc r l).filter (fun x => decide (x.score = c))
      = l.filter (fun x => decide (x.score = c)) := by
  obtain ⟨l₁, l₂, h1, h2, -, -⟩ := insertByScoreDesc_split r l
  subst h1
  rw [h2]
  simp [List.filter_append, hne]

/-- Inserting an element appends it to the end of its own score class when
the accumulator is sorted descending. -/
theorem filter_insertByScoreDesc_self {α : Type} (r : SearchResult α)
    (l : List (SearchResult α))
    (hsort : List.Pairwise (fun a b => b.score ≤ a.score) l) :
    (insertByScoreDesc r l).filter (fun x => decide (x.score = r.score))
      = l.filter (fun x => decide (x.score = r.score)) ++ [r] := by
  obtain ⟨l₁, l₂, h1, h2, h3, h4⟩ := insertByScoreDesc_split r l
  subst h1
  rw [h2]
  have hl₂ : ∀ x ∈ l₂, ¬ x.score = r.score := by
    intro x hx
    cases l₂ with
    | nil => simp at hx
    | cons y ys =>
      have hy : y.score < r.score := h4 y rfl
      rcases List.mem_cons.mp hx with hx | hx
      · subst hx; exact ne_of_lt hy
      · have hpw := (List.pairwise_append.mp hsort).2.1
        have := (List.pairwise_cons.mp hpw).1 x hx
        exact ne_of_lt (lt_of_le_of_lt this hy)
  rw [List.filter_append, List.filter_append]
  have hl₂f : l₂.filter (fun x => decide (x.score = r.score)) = [] := by
    rw [List.filter_eq_nil_iff]
    intro x hx
    simpa using hl₂ x hx
  rw [List.filter_cons]
  simp [hl₂f]

/-- The insertion fold keeps each score class in input order, appended after
whatever the accumulator already held, and keeps the accumulator sorted. -/
theorem sortByScoreDesc_go {α : Type} (l : List (SearchResult α)) :
    ∀ acc, List.Pairwise (fun a b => b.score ≤ a.score) acc →
      List.Pairwise (fun a b => b.score ≤ a.score)
        (List.foldl (fun acc r => insertByScoreDesc r acc) acc l) ∧
      ∀ c : Rat,
        (List.foldl (fun acc r => insertByScoreDesc r acc) acc l).filter
            (fun x => decide (x.score = c))
          = acc.filter (fun x => decide (x.score = c)) ++
              l.filter (fun x => decide (x.score = c)) := by
  induction l with
  | nil => intro acc hacc; exact ⟨hacc, fun c => by simp⟩
  | cons r rest ih =>
    intro acc hacc
    have hacc' := sortedDesc_insertByScoreDesc r acc hacc
    obtain ⟨hp, hf⟩ := ih (insertByScoreDesc r acc) hacc'
    refine ⟨hp, ?_⟩
    intro c
    rw [List.foldl_cons, hf c, List.filter_cons]
    by_cases hc : r.score = c
    · rw [← hc]
      rw [filter_insertByScoreDesc_self r acc hacc]
      simp [hc]
    · rw [filter_insertByScoreDesc_ne r acc c hc]
      simp [hc]

/-- C6 (amended): the shared sort of every `search_*` method orders results
by score descending but is stable — within each score class the accumulated
retrieval order is kept verbatim, so ties are not reordered by uuid. -/
theorem sortByScoreDesc_stable {α : Type} (l : List (SearchResult α)) :
    List.Pairwise (fun a b => b.score ≤ a.score) (sortByScoreDesc l) ∧
    ∀ c : Rat,
      (sortByScoreDesc l).filter (fun x => decide (x.score = c))
        = l.filter (fun x => decide (x.score = c)) := by
  have h := sortByScoreDesc_go l [] (by simp)
  refine ⟨h.1, fun c => ?_⟩
  rw [show sortByScoreDesc l = List.foldl (fun acc r => insertByScoreDesc r acc) [] l
    from rfl]
  simpa using h.2 c

/-- C6 counterexample: a full `search` whose node vector query returns two
results tying on score, with uuid `"b"` retrieved before uuid `"a"`, returns
them in retrieval order — `"b"` first — although uuid-ascending order would
put `"a"` first. -/
theorem search_ties_not_ordered_by_uuid :
    (search testEnv "q" SearchConfig.default SearchFilters.default none).1.nodes
      = [{ item := testNodeB, score := 1 }, { item := testNodeA, score := 1 }] ∧
    testNodeB.base.uuid = "b" ∧
    testNodeA.base.uuid = "a" ∧
    strLtb testNodeA.base.uuid testNodeB.base.uuid = true := by
  refine ⟨by decide, rfl, rfl, by decide⟩

/-! ## C5 — `search` with `limit = 0` -/

/-- A fold over a function that fixes its accumulator is the accumulator. -/
theorem foldl_fixed {α β : Type} (f : β → α → β) (h : ∀ b a, f b a = b) :
    ∀ (l : List α) (acc : β), l.foldl f acc = acc := by
  intro l
  induction l with
  | nil => intro acc; rfl
  | cons a rest ih => intro acc; rw [List.foldl_cons, h]; exact ih acc

/-- `node_similarity_search` early-outs on `limit = 0` without a port call. -/
theorem node_similarity_search_zero (env : SearchEnv) (v : List Rat)
    (filters : SearchFilters) (gids : Option (List String)) :
    node_similarity_search env v filters gids 0 = ([], []) := by
  simp [node_similarity_search]

/-- `node_fulltext_search` early-outs on `limit = 0` without a port call. -/
theorem node_fulltext_search_zero (env : SearchEnv) (query : String)
    (filters : SearchFilters) (gids : Option (List String)) :
    node_fulltext_search env query filters gids 0 = ([], []) := by
  simp [node_fulltext_search]

/-- `episode_fulltext_search` early-outs on `limit = 0` without a port call. -/
theorem episode_fulltext_search_zero (env : SearchEnv) (query : String)
    (filters : SearchFilters) (gids : Option (List String)) :
    episode_fulltext_search env query filters gids 0 = ([], []) := by
  simp [episode_fulltext_search]

/-- With `limit = 0` every node search method contributes nothing. -/
theorem searchNodesStep_zero (env : SearchEnv) (query : String)
    (filters : SearchFilters) (gids : Option (List String))
    (qvec : Option (List Rat))
    (acc : List (SearchResult EntityNode) × List PortCall)
    (method : NodeSearchMethod) :
    searchNodesStep env query filters gids 0 qvec acc method = acc := by
  cases method with
  | cosimeSimilarity =>
    cases qvec with
    | some v => simp [searchNodesStep, node_similarity_search_zero]
    | none => rfl
  | bm25 => simp [searchNodesStep, node_fulltext_search_zero]
  | bfs => rfl

/-- Every edge search method contributes nothing (all three are stubs or
early-outs in the source). -/
theorem searchEdgesStep_fixed (env : SearchEnv) (query : String)
    (filters : SearchFilters) (gids : Option (List String)) (limit : Nat)
    (qvec : Option (List Rat))
    (acc : List (SearchResult EntityEdge) × List PortCall)
    (method : EdgeSearchMethod) :
    searchEdgesStep env query filters gids limit qvec acc method = acc := by
  cases method with
  | cosimeSimilarity =>
    cases qvec with
    | some v => simp [searchEdgesStep, edge_similarity_search]
    | none => rfl
  | bm25 => simp [searchEdgesStep, edge_fulltext_search]
  | bfs => simp [searchEdgesStep, edge_bfs_search]

/-- With `limit = 0` the episode method contributes nothing. -/
theorem searchEpisodesStep_zero (env : SearchEnv) (query : String)
    (filters : SearchFilters) (gids : Option (List String))
    (acc : List (SearchResult EpisodicNode) × List PortCall)
    (method : EpisodeSearchMethod) :
    searchEpisodesStep env query filters gids 0 acc method = acc := by
  cases method with
  | bm25 => simp [searchEpisodesStep, episode_fulltext_search_zero]

/-- Every community search method contributes nothing (both are stubs in the
source). -/
theorem searchCommunitiesStep_fixed (env : SearchEnv) (query : String)
    (gids : Option (List String)) (limit : Nat) (qvec : Option (List Rat))
    (acc : List (SearchResult CommunityNode) × List PortCall)
    (method : CommunitySearchMethod) :
    searchCommunitiesStep env query gids limit qvec acc method = acc := by
  cases method with
  | cosimeSimilarity =>
    cases qvec with
    | some v => simp [searchCommunitiesStep, community_similarity_search]
    | none => rfl
  | bm25 => simp [searchCommunitiesStep, community_fulltext_search]

/-- The embedding preamble of `search_nodes` performs no store call (it only
touches the cache and the embedder). -/
theorem nodeQueryVector_not_store (env : SearchEnv) (query : String)
    (methods : List NodeSearchMethod) (call : PortCall)
    (h : call ∈ (nodeQueryVector env query methods).2) : call.isStore = false := by
  unfold nodeQueryVector at h
  by_cases hm : NodeSearchMethod.cosimeSimilarity ∈ methods
  · rw [if_pos hm] at h
    cases hcg : env.cacheGet ("embedding:" ++ query) with
    | some bytes =>
      simp only [hcg] at h
      cases hdv : env.decodeVec bytes with
      | some v =>
        simp only [hdv] at h
        simp at h
        subst h
        rfl
      | none =>
        simp only [hdv] at h
        simp at h
        rcases h with h | h | h <;> subst h <;> rfl
    | none =>
      simp only [hcg] at h
      simp at h
      rcases h with h | h | h <;> subst h <;> rfl
  · rw [if_neg hm] at h
    simp at h

/-- `search_nodes` with `limit = 0`: empty results, no store call. -/
theorem search_nodes_zero (env : SearchEnv) (query : String)
    (methods : List NodeSearchMethod) (filters : SearchFilters)
    (gids : Option (List String)) :
    (search_nodes env query methods filters gids 0).1 = [] ∧
    ∀ call ∈ (search_nodes env query methods filters gids 0).2,
      call.isStore = false := by
  by_cases hm : methods = []
  · constructor <;> simp [search_nodes, hm]
  · have hfold := foldl_fixed
      (searchNodesStep env query filters gids 0 (nodeQueryVector env query methods).1)
      (searchNodesStep_zero env query filters gids (nodeQueryVector env query methods).1)
      methods ([], [])
    constructor
    · simp [search_nodes, hm, hfold, rankResults]
    · intro call hc
      simp only [search_nodes, if_neg hm, hfold] at hc
      simp at hc
      exact nodeQueryVector_not_store env query methods call hc

/-- `search_edges`: empty results at every limit, and the only possible port
call is the embedder. -/
theorem search_edges_all (env : SearchEnv) (query : String)
    (methods : List EdgeSearchMethod) (filters : SearchFilters)
    (gids : Option (List String)) (limit : Nat) :
    (search_edges env query methods filters gids limit).1 = [] ∧
    ∀ call ∈ (search_edges env query methods filters gids limit).2,
      call.isStore = false := by
  by_cases hm : methods = []
  · constructor <;> simp [search_edges, hm]
  · have hfold := foldl_fixed
      (searchEdgesStep env query filters gids limit
        (if EdgeSearchMethod.cosimeSimilarity ∈ methods then
          some (env.embedQuery query) else none))
      (searchEdgesStep_fixed env query filters gids limit _)
      methods ([], [])
    by_cases hcs : EdgeSearchMethod.cosimeSimilarity ∈ methods
    · rw [if_pos hcs] at hfold
      constructor
      · simp [search_edges, hm, hcs, hfold, rankResults, sortByScoreDesc, dedupByUuid]
      · intro call hc
        simp only [search_edges, if_neg hm, if_pos hcs] at hc
        simp [hfold] at hc
        subst hc
        rfl
    · rw [if_neg hcs] at hfold
      constructor
      · simp [search_edges, hm, hcs, hfold, rankResults, sortByScoreDesc, dedupByUuid]
      · intro call hc
        simp only [search_edges, if_neg hm, if_neg hcs] at hc
        simp [hfold] at hc

/-- `search_episodes` with `limit = 0`: empty results, no port call at all. -/
theorem search_episodes_zero (env : SearchEnv) (query : String)
    (methods : List EpisodeSearchMethod) (filters : SearchFilters)
    (gids : Option (List String)) :
    (search_episodes env query methods filters gids 0).1 = [] ∧
    ∀ call ∈ (search_episodes env query methods filters gids 0).2,
      call.isStore = false := by
  by_cases hm : methods = []
  · constructor <;> simp [search_episodes, hm]
  · have hfold := foldl_fixed
      (searchEpisodesStep env query filters gids 0)
      (searchEpisodesStep_zero env query filters gids)
      methods ([], [])
    constructor
    · simp [search_episodes, hm, hfold, rankResults]
    · intro call hc
      simp only [search_episodes, if_neg hm, hfold] at hc
      simp at hc

/-- `search_communities`: empty results at every limit, and the only possible
port call is the embedder. -/
theorem search_communities_all (env : SearchEnv) (query : String)
    (methods : List CommunitySearchMethod) (filters : SearchFilters)
    (gids : Option (List String)) (limit : Nat) :
    (search_communities env query methods filters gids limit).1 = [] ∧
    ∀ call ∈ (search_communities env query methods filters gids limit).2,
      call.isStore = false := by
  by_cases hm : methods = []
  · constructor <;> simp [search_communities, hm]
  · have hfold := foldl_fixed
      (searchCommunitiesStep env query gids limit
        (if CommunitySearchMethod.cosimeSimilarity ∈ methods then
          some (env.embedQuery query) else none))
      (searchCommunitiesStep_fixed env query gids limit _)
      methods ([], [])
    by_cases hcs : CommunitySearchMethod.cosimeSimilarity ∈ methods
    · rw [if_pos hcs] at hfold
      constructor
      · simp [search_communities, hm, hcs, hfold, rankResults, sortByScoreDesc,
          dedupByUuid]
      · intro call hc
        simp only [search_communities, if_neg hm, if_pos hcs] at hc
        simp [hfold] at hc
        subst hc
        rfl
    · rw [if_neg hcs] at hfold
      constructor
      · simp [search_communities, hm, hcs, hfold, rankResults, sortByScoreDesc,
          dedupByUuid]
      · intro call hc
        simp only [search_communities, if_neg hm, if_neg hcs] at hc
        simp [hfold] at hc

/-- C5 (amended): `search` with `limit = 0` and no whole-search cache entry
returns empty result lists for all four kinds and never calls the graph
store; it does, however, consult the cache, and it calls the embedder for
every kind whose configured methods include cosine similarity (see the
counterexample theorem), so "no call to any port" fails only for the
embedder and cache. -/
theorem search_limit_zero_no_store (env : SearchEnv) (query : String)
    (config : SearchConfig) (filters : SearchFilters)
    (gids : Option (List String)) (hlimit : config.limit = 0)
    (hmiss : env.cacheGet (searchCacheKey env query config filters gids) = none) :
    (search env query config filters gids).1.nodes = [] ∧
    (search env query config filters gids).1.edges = [] ∧
    (search env query config filters gids).1.episodes = [] ∧
    (search env query config filters gids).1.communities = [] ∧
    ∀ call ∈ (search env query config filters gids).2, call.isStore = false := by
  obtain ⟨hn1, hn2⟩ := search_nodes_zero env query
    config.node_search_config.search_methods filters gids
  obtain ⟨he1, he2⟩ := search_edges_all env query
    config.edge_search_config.search_methods filters gids 0
  obtain ⟨hp1, hp2⟩ := search_episodes_zero env query
    config.episode_search_config.search_methods filters gids
  obtain ⟨hc1, hc2⟩ := search_communities_all env query
    config.community_search_config.search_methods filters gids 0
  have hsearch : search env query config filters gids
      = ((searchUncached env query config filters gids
            (searchCacheKey env query config filters gids)).1,
         PortCall.cacheGet (searchCacheKey env query config filters gids) ::
           (searchUncached env query config filters gids
            (searchCacheKey env query config filters gids)).2) := by
    simp only [search, hmiss]
  rw [hsearch]
  simp only [searchUncached]
  rw [hlimit]
  refine ⟨hn1, he1, hp1, hc1, ?_⟩
  intro call hcall
  rcases List.mem_cons.mp hcall with h | h
  · subst h; rfl
  · rcases List.mem_append.mp h with h | h
    · rcases List.mem_append.mp h with h | h
      · rcases List.mem_append.mp h with h | h
        · rcases List.mem_append.mp h with h | h
          · exact hn2 call h
          · exact he2 call h
        · exact hp2 call h
      · exact hc2 call h
    · simp at h
      subst h
      rfl

/-- C5 counterexample: with the default configuration restricted to
`limit = 0`, `search` still calls the embedder port on the query (the
similarity preamble of `search_nodes` runs before the limit is ever
consulted), refuting "performs no call to any port". -/
theorem search_limit_zero_calls_embedder :
    PortCall.embed "q" ∈
      (search testEnv "q"
        { SearchConfig.default with limit := 0 }
        SearchFilters.default none).2 := by
  decide

/-- C5 witness: `search_limit_zero_no_store` at the concrete environment and
the default configuration with `limit = 0`. -/
theorem search_limit_zero_no_store_witness :
    (search testEnv "q" { SearchConfig.default with limit := 0 }
      SearchFilters.default none).1.nodes = [] ∧
    (search testEnv "q" { SearchConfig.default with limit := 0 }
      SearchFilters.default none).1.edges = [] ∧
    (search testEnv "q" { SearchConfig.default with limit := 0 }
      SearchFilters.default none).1.episodes = [] ∧
    (search testEnv "q" { SearchConfig.default with limit := 0 }
      SearchFilters.default none).1.communities = [] ∧
    ∀ call ∈ (search testEnv "q" { SearchConfig.default with limit := 0 }
      SearchFilters.default none).2, call.isStore = false :=
  search_limit_zero_no_store testEnv "q"
    { SearchConfig.default with limit := 0 } SearchFilters.default none
    rfl rfl

end Graphiti
